import Mathlib

/-!
Verification of the LIO-SAM processing scripts
(`liosam_config.py`, `process_liosam.py`, `process_liosam_batch.py`)
against their design specification.

The scripts orchestrate a staged SLAM pipeline: a config-generation stage
and a processing stage per session, run either for a single session or in
a filtered batch.  The pipeline engine (`xb.pipeline.run`), the supervised
process (`ManagedProcess`) and the recording scope (`xb.bag.record`) live
in the external `xbag` library; their contracts are modelled from the
specification where noted.  Everything else is translated directly from
the three scripts.
-/

namespace LioSam

/-! ## Filesystem model

Artifact files are the durable completion markers of the pipeline, so the
model tracks, for each path, the size of the file stored there.  A path is
a plain string; directories are implicit. -/

/-- A filesystem: an association list from path to file size. -/
abbrev FS := List (String × Nat)

/-- Size of the file at path `p`, if it exists. -/
def FS.sizeOf? (fs : FS) (p : String) : Option Nat :=
  match fs with
  | [] => none
  | (q, n) :: rest => if q = p then some n else FS.sizeOf? rest p

/-- Does a file exist at path `p`? -/
def FS.fileExists (fs : FS) (p : String) : Bool :=
  (fs.sizeOf? p).isSome

/-- Does a non-empty file exist at path `p`? -/
def FS.fileNonempty (fs : FS) (p : String) : Bool :=
  match fs.sizeOf? p with
  | some n => decide (0 < n)
  | none => false

/-- Write a file of size `n` at path `p`, replacing any existing file
(the engine overwrites, never appends). -/
def FS.write (fs : FS) (p : String) (n : Nat) : FS :=
  match fs with
  | [] => [(p, n)]
  | (q, m) :: rest => if q = p then (p, n) :: rest else (q, m) :: FS.write rest p n

/-! ## Strings -/

/-- Is `needle` a prefix of `hay` (on character lists)? -/
def charsLead : List Char → List Char → Bool
  | [], _ => true
  | _ :: _, [] => false
  | a :: as, b :: bs => a == b && charsLead as bs

/-- The files of `fs` whose path starts with `pre` (an output directory). -/
def FS.under (fs : FS) (pre : String) : List String :=
  (fs.filter (fun e => charsLead pre.toList e.1.toList)).map (·.1)

/-- Does `hay` contain `needle` as a contiguous substring (on character lists)? -/
def charsContain (needle : List Char) : List Char → Bool
  | [] => charsLead needle []
  | c :: rest => charsLead needle (c :: rest) || charsContain needle rest

/-- Does the string `hay` contain the string `needle`?  Mirrors Python's
`needle in hay`. -/
def strContains (hay needle : String) : Bool :=
  charsContain needle.toList hay.toList

/-- ASCII lowercase of one character (Python's `str.lower()` on the ASCII
sensor names the scripts handle). -/
def charLower (c : Char) : Char :=
  if 65 ≤ c.toNat ∧ c.toNat ≤ 90 then Char.ofNat (c.toNat + 32) else c

/-- ASCII lowercase of a string (Python's `str.lower()`). -/
def strLower (s : String) : String :=
  String.mk (s.data.map charLower)

/-! ## Errors and exceptions

Python distinguishes ordinary exceptions (subclasses of `Exception`,
caught by the scripts' `except Exception` clauses) from
`KeyboardInterrupt`, which only an explicit `except KeyboardInterrupt`
clause catches. -/

/-- An exception: an ordinary `Exception` carrying its message, or a
`KeyboardInterrupt`. -/
inductive Err where
  | exc (msg : String)
  | interrupt
deriving Repr, DecidableEq

/-! ## Sessions

The session provider is an external collaborator; a session exposes
exactly what the scripts read from it: identity, the has-bags flag, the
discovered sensors, calibration presence, the transform-resolver answers,
and the outcome of replaying the session (`xb.session.play`). -/

/-- A discovered sensor: name, frame id, and its primary data topic
(`cloud_topic` for a lidar, `imu_topic` for an IMU), if any. -/
structure Sensor where
  name : String
  frame_id : String
  topic : Option String
deriving Repr, DecidableEq

/-- One recorded session, as seen through the collaborator interfaces the
scripts use. -/
structure Session where
  uuid : String
  has_bags : Bool
  lidars_3d : List Sensor
  imus : List Sensor
  /-- `session.files.get_calibration("default.yaml")` returns an existing file. -/
  calibPresent : Bool
  /-- `TfTree.from_file(calib_file)` is non-trivial (`tf_tree.has_transform`). -/
  tfHasTransform : Bool
  /-- `tf_tree.get_transform(a, b)` finds a transform between frames `a` and `b`. -/
  tfLookup : String → String → Bool
  /-- Outcome of `xb.session.play(session, ...)` inside the liosam stage. -/
  playResult : Except Err Unit

/-! ## The liosam_config stage (`liosam_config.py`, `generate_config`) -/

/-- Lidar selection from `generate_config` lines 55-61: the first lidar
whose lowercased name contains "velodyne", otherwise the first lidar. -/
def selectLidar (l0 : Sensor) (lidars : List Sensor) : Sensor :=
  match lidars.find? (fun l => strContains (strLower l.name) "velodyne") with
  | some l => l
  | none => l0

/-- Vendor detection from `generate_config` lines 103-108: the first of
"velodyne", "ouster" contained in the lowercased lidar name. -/
def detectVendor (name : String) : Option String :=
  (["velodyne", "ouster"]).find? (fun v => strContains (strLower name) v)

/-- Modelled from the spec: the vendor-keyed preset document
(`config/lidar_presets.yaml`, not under the scripts) maps each supported
sensor vendor to its tool parameters; both detectable vendors have
presets. -/
def lidarPresets : List String := ["velodyne", "ouster"]

/-- `load_lidar_preset` from `liosam_config.py`: fails unless the vendor
has a preset. -/
def load_lidar_preset (vendor : String) : Except Err Unit :=
  if lidarPresets.contains vendor then .ok ()
  else .error (.exc ("No preset found for vendor " ++ vendor))

/-- The `liosam_config` stage body, translated from `generate_config` in
`liosam_config.py`.  Returns the updated filesystem and artifact list, or
the exception raised.  The YAML content is abstracted to a non-empty
file; every check and its order follow the source. -/
def generate_config (s : Session) (output_dir : String) (fs : FS) :
    FS × Except Err (List String) :=
  match s.lidars_3d with
  | [] => (fs, .error (.exc "No 3D LiDAR sensor found in session"))
  | l0 :: rest =>
    let lidar := selectLidar l0 (l0 :: rest)
    match s.imus with
    | [] => (fs, .error (.exc "No IMU sensor found in session"))
    | imu :: _ =>
      if !s.calibPresent then
        (fs, .error (.exc ("Calibration file not found: " ++ s.uuid ++
          "/calibration/default.yaml")))
      else if !s.tfHasTransform then
        (fs, .error (.exc ("No transforms found in calibration file: " ++
          s.uuid ++ "/calibration/default.yaml")))
      else if !(s.tfLookup lidar.frame_id imu.frame_id) then
        (fs, .error (.exc ("Transform not found: " ++ lidar.frame_id ++
          " -> " ++ imu.frame_id)))
      else
        match detectVendor lidar.name with
        | none => (fs, .error (.exc ("Unknown LiDAR vendor in name: " ++ lidar.name)))
        | some vendor =>
          match load_lidar_preset vendor with
          | .error e => (fs, .error e)
          | .ok _ =>
            match lidar.topic with
            | none => (fs, .error (.exc ("No point cloud topic found for LiDAR: " ++
                lidar.name)))
            | some _ =>
              match imu.topic with
              | none => (fs, .error (.exc ("No IMU topic found for IMU: " ++ imu.name)))
              | some _ =>
                let output_file := output_dir ++ "/liosam_config.yaml"
                (fs.write output_file 1, .ok [output_file])

/-! ## The liosam stage (`process_liosam.py`, `liosam_processor`) -/

/-- Scope events of the liosam stage: the `ManagedProcess` scope around
the `xb.bag.record` scope around `xb.session.play`. -/
inductive Ev where
  | procStart
  | recOpen
  | play
  | recClose
  | procTerm
deriving Repr, DecidableEq

/-- The `liosam` stage body, translated from `liosam_processor` in
`process_liosam.py`.  Returns the updated filesystem, the result or
exception, and the ordered scope events.  The `with ManagedProcess`
and `with xb.bag.record` blocks follow Python scope semantics: the
recorder creates the sink on entry and finalizes it on every exit, the
process is terminated on every exit, and only then does an exception
from `xb.session.play` propagate (scope-exit behaviour of the two
`xbag` context managers modelled from the spec). -/
def liosam_processor (s : Session) (output_dir : String) (fs : FS) :
    FS × Except Err (List String) × List Ev :=
  if !s.has_bags then
    (fs, .error (.exc "Session has no bag files"), [])
  else
    let config_path := output_dir ++ "/liosam_config.yaml"
    if !(fs.fileExists config_path) then
      (fs, .error (.exc ("Config file not found: " ++ config_path ++
        " -- Run liosam_config processor first")), [])
    else
      let output_bag := output_dir ++ "/liosam_processed.bag"
      let fsOpen := fs.write output_bag 0
      let fsClosed := fsOpen.write output_bag 1
      match s.playResult with
      | .ok _ =>
        (fsClosed, .ok [output_bag],
          [.procStart, .recOpen, .play, .recClose, .procTerm])
      | .error e =>
        (fsClosed, .error e,
          [.procStart, .recOpen, .play, .recClose, .procTerm])

/-! ## The pipeline engine

`xb.pipeline.run` is part of the `xbag` library, not of the scripts; its
contract is modelled from the specification (§4.2): resolve the stage by
name, skip when the primary artifact already exists non-empty and `force`
is false, otherwise invoke the stage body and verify the declared
artifacts exist. -/

/-- Outcome status of one (session, stage) engine invocation. -/
inductive Status where
  | Skipped
  | Succeeded
  | Failed (e : Err)
deriving Repr, DecidableEq

/-- Did the invocation end in `Succeeded` or `Skipped` (the two outcomes
after which the caller proceeds)? -/
def Status.isOk : Status → Bool
  | .Skipped => true
  | .Succeeded => true
  | .Failed _ => false

/-- Result of one engine invocation: status, artifact list, whether the
stage body was invoked, the resulting filesystem, and the scope events
emitted by the body. -/
structure RunResult where
  status : Status
  artifacts : List String
  invoked : Bool
  fs : FS
  events : List Ev
deriving Repr

/-- A registered stage: its name (bound by `@register_process` in the
scripts), its fixed primary artifact filename, and its body. -/
structure StageSpec where
  name : String
  primary : String
  body : Session → String → FS → FS × Except Err (List String) × List Ev

/-- The registered `liosam_config` stage (`@register_process("liosam_config")`
on `generate_config`); its body emits no scope events. -/
def cfgStageSpec : StageSpec :=
  { name := "liosam_config", primary := "liosam_config.yaml",
    body := fun s d fs =>
      let r := generate_config s d fs
      (r.1, r.2, []) }

/-- The registered `liosam` stage (`@register_process("liosam")` on
`liosam_processor`). -/
def lioStageSpec : StageSpec :=
  { name := "liosam", primary := "liosam_processed.bag",
    body := liosam_processor }

/-- The stage registry as populated by the two `@register_process`
decorators. -/
def registry : List StageSpec := [cfgStageSpec, lioStageSpec]

/-- Modelled from the spec: the per-session output directory for a stage
group — artifacts live under session-scoped storage, with the group name
as a subdirectory (§6, persisted state layout). -/
def sessionOutDir (s : Session) (group : String) : String :=
  s.uuid ++ "/processed/" ++ group

/-- The expected primary artifact path of stage `name` for session `s`
under group `group`, when the stage is registered. -/
def primaryPathOf (s : Session) (name group : String) : Option String :=
  (registry.find? (fun st => st.name == name)).map
    (fun st => sessionOutDir s group ++ "/" ++ st.primary)

/-- Modelled from the spec: `xb.pipeline.run` (§4.2).  Resolves the
stage; if `force` is false and the primary artifact exists non-empty,
returns `Skipped` with the existing artifact list without invoking the
body; otherwise invokes the body, propagating its exception or verifying
that every returned artifact exists. -/
def pipelineRun (s : Session) (name group : String) (force : Bool) (fs : FS) :
    RunResult :=
  match registry.find? (fun st => st.name == name) with
  | none =>
    { status := .Failed (.exc ("Unknown process: " ++ name)), artifacts := [],
      invoked := false, fs := fs, events := [] }
  | some st =>
    let outDir := sessionOutDir s group
    let primaryPath := outDir ++ "/" ++ st.primary
    if !force && fs.fileNonempty primaryPath then
      { status := .Skipped, artifacts := [primaryPath], invoked := false,
        fs := fs, events := [] }
    else
      match st.body s outDir fs with
      | (fs', .error e, evs) =>
        { status := .Failed e, artifacts := [], invoked := true,
          fs := fs', events := evs }
      | (fs', .ok arts, evs) =>
        if arts.all fs'.fileExists then
          { status := .Succeeded, artifacts := arts, invoked := true,
            fs := fs', events := evs }
        else
          { status := .Failed (.exc "IncompleteArtifactError"), artifacts := [],
            invoked := true, fs := fs', events := evs }

/-! ## The single-session command (`process_liosam.py`, `main`) -/

/-- One engine invocation as observed by a caller: the session's uuid,
the stage name, and the status the engine returned. -/
structure TraceEntry where
  uuid : String
  stage : String
  status : Status
deriving Repr, DecidableEq

/-- Exit behaviour of a command: a normal process exit with a code, or an
exception that escaped `main` (its numeric exit code is then decided by
the CLI framework, not by the script). -/
inductive ExitOutcome where
  | code (n : Nat)
  | uncaught (e : Err)
deriving Repr, DecidableEq

/-- The single-session command, translated from `main` in
`process_liosam.py`: check `has_bags` (abort with exit code 1 via
`click.Abort`), run `liosam_config` then `liosam` under group "liosam2";
`except Exception` around each stage aborts (exit 1), and
`except KeyboardInterrupt` around the liosam stage raises
`SystemExit(130)`.  A `KeyboardInterrupt` from the config stage is not
caught by the script.  Returns exit outcome, engine trace, and final
filesystem. -/
def singleMain (s : Session) (force : Bool) (fs : FS) :
    ExitOutcome × List TraceEntry × FS :=
  if !s.has_bags then
    (.code 1, [], fs)
  else
    let r1 := pipelineRun s "liosam_config" "liosam2" force fs
    let t1 := [⟨s.uuid, "liosam_config", r1.status⟩]
    match r1.status with
    | .Failed (.exc _) => (.code 1, t1, r1.fs)
    | .Failed .interrupt => (.uncaught .interrupt, t1, r1.fs)
    | _ =>
      let r2 := pipelineRun s "liosam" "liosam2" force r1.fs
      let t2 := t1 ++ [⟨s.uuid, "liosam", r2.status⟩]
      match r2.status with
      | .Failed .interrupt => (.code 130, t2, r2.fs)
      | .Failed (.exc _) => (.code 1, t2, r2.fs)
      | _ => (.code 0, t2, r2.fs)

/-! ## The batch command (`process_liosam_batch.py`, `main`) -/

/-- Mutable state of the batch loop: the two counters from the script,
plus the engine trace and the filesystem. -/
structure BatchState where
  success : Nat
  fail : Nat
  trace : List TraceEntry
  fs : FS
deriving Repr

/-- Outcome of one iteration of the batch session loop: continue with
the next session, or stop because a `KeyboardInterrupt` escaped to the
outer handler. -/
inductive StepRes where
  | next (st : BatchState)
  | stop (st : BatchState)
deriving Repr

/-- The body of the session loop of `main` in `process_liosam_batch.py`
(lines 60-89): run `liosam_config` (on `Exception`: count a failure and
continue with the next session), then `liosam` (on success count a
success, on `Exception` count a failure); a `KeyboardInterrupt` from
either stage escapes to the outer handler. -/
def batchStep (force : Bool) (s : Session) (st : BatchState) : StepRes :=
  let r1 := pipelineRun s "liosam_config" "liosam" force st.fs
  let st1 : BatchState :=
    { st with fs := r1.fs,
              trace := st.trace ++ [⟨s.uuid, "liosam_config", r1.status⟩] }
  match r1.status with
  | .Failed .interrupt => .stop st1
  | .Failed (.exc _) => .next { st1 with fail := st1.fail + 1 }
  | _ =>
    let r2 := pipelineRun s "liosam" "liosam" force st1.fs
    let st2 : BatchState :=
      { st1 with fs := r2.fs,
                 trace := st1.trace ++ [⟨s.uuid, "liosam", r2.status⟩] }
    match r2.status with
    | .Failed .interrupt => .stop st2
    | .Failed (.exc _) => .next { st2 with fail := st2.fail + 1 }
    | _ => .next { st2 with success := st2.success + 1 }

/-- The session loop of `main` in `process_liosam_batch.py` (lines
57-89): iterate `batchStep` over the sessions in order.  Returns the
final state and whether the loop was interrupted. -/
def batchLoop (force : Bool) : List Session → BatchState → BatchState × Bool
  | [], st => (st, false)
  | s :: rest, st =>
    match batchStep force s st with
    | .next st' => batchLoop force rest st'
    | .stop st' => (st', true)

/-- The batch command, translated from `main` in
`process_liosam_batch.py`: run the loop over the filtered sessions (an
empty filter result returns early with exit code 0), print the summary,
and exit via `click.Abort` (code 1) exactly when `fail_count` is
non-zero — also after a `KeyboardInterrupt`, which is caught before the
summary.  Returns exit outcome, final state, and the interrupted flag. -/
def batchMain (sessions : List Session) (force : Bool) (fs : FS) :
    ExitOutcome × BatchState × Bool :=
  match sessions with
  | [] => (.code 0, ⟨0, 0, [], fs⟩, false)
  | _ =>
    let (st, intr) := batchLoop force sessions ⟨0, 0, [], fs⟩
    (if st.fail = 0 then .code 0 else .code 1, st, intr)

/-! ## Derived vocabulary for the theorems -/

/-- The batch command's expected config artifact path for a session uuid
(group "liosam"). -/
def cfgPathOf (u : String) : String :=
  u ++ "/processed/" ++ "liosam" ++ "/" ++ "liosam_config.yaml"

/-- The batch command's expected output-bag artifact path for a session
uuid (group "liosam"). -/
def bagPathOf (u : String) : String :=
  u ++ "/processed/" ++ "liosam" ++ "/" ++ "liosam_processed.bag"

/-- The full path of artifact `fname` for session `s` under group `g`. -/
def artPath (s : Session) (g fname : String) : String :=
  sessionOutDir s g ++ "/" ++ fname

/-- Stage ordering within a trace: every `liosam` invocation is
immediately preceded by a `liosam_config` invocation of the same session
that returned `Succeeded` or `Skipped`. -/
def tracePrec (tr : List TraceEntry) : Prop :=
  ∀ i e, tr[i]? = some e → e.stage = "liosam" →
    1 ≤ i ∧ ∃ p, tr[i - 1]? = some p ∧ p.uuid = e.uuid ∧
      p.stage = "liosam_config" ∧ p.status.isOk = true

/-- A session on which both batch stages always come back `Succeeded` or
`Skipped`: the config stage on any filesystem, the liosam stage on any
filesystem that already holds the config artifact (which is the case
whenever the config stage just returned `Succeeded` or `Skipped`). -/
def goodSession (force : Bool) (s : Session) : Prop :=
  (∀ fs : FS, ((pipelineRun s "liosam_config" "liosam" force fs).status).isOk = true) ∧
  (∀ fs : FS, fs.fileExists (cfgPathOf s.uuid) = true →
    ((pipelineRun s "liosam" "liosam" force fs).status).isOk = true)

/-- The `liosam_config` stage body raises an ordinary exception on every
filesystem (for the batch command's output directory). -/
def cfgBodyFails (s : Session) : Prop :=
  ∀ fs : FS, ∃ m,
    (generate_config s (sessionOutDir s "liosam") fs).2 = .error (.exc m)

/-- The `liosam` stage body raises an ordinary exception on every
filesystem (for the batch command's output directory). -/
def lioBodyFails (s : Session) : Prop :=
  ∀ fs : FS, ∃ m,
    (liosam_processor s (sessionOutDir s "liosam") fs).2.1 = .error (.exc m)

/-- A session on which one stage body always raises an ordinary
exception: either the config body raises, or the config stage always
comes back ok and the liosam body raises. -/
def badSession (force : Bool) (s : Session) : Prop :=
  cfgBodyFails s ∨
  ((∀ fs : FS, ((pipelineRun s "liosam_config" "liosam" force fs).status).isOk = true) ∧
    lioBodyFails s)

/-! ## Concrete sessions for witnesses and counterexamples -/

/-- A fully valid session: a velodyne lidar, an IMU, calibration and
transforms present, replay succeeds. -/
def sessValid : Session :=
  { uuid := "s1", has_bags := true,
    lidars_3d := [⟨"velodyne_vlp16", "velodyne", some "/velodyne_points"⟩],
    imus := [⟨"xsens_imu", "imu_link", some "/imu/data"⟩],
    calibPresent := true, tfHasTransform := true,
    tfLookup := fun _ _ => true, playResult := .ok () }

/-- A session with a 3D lidar but no IMU sensor. -/
def sessNoImu : Session :=
  { uuid := "s2", has_bags := true,
    lidars_3d := [⟨"ouster_os1", "os_sensor", some "/ouster/points"⟩],
    imus := [], calibPresent := true, tfHasTransform := true,
    tfLookup := fun _ _ => true, playResult := .ok () }

/-- A session whose lidar vendor is neither velodyne nor ouster. -/
def sessHesai : Session :=
  { uuid := "s3", has_bags := true,
    lidars_3d := [⟨"hesai_xt32", "hesai_frame", some "/hesai/points"⟩],
    imus := [⟨"xsens_imu", "imu_link", some "/imu/data"⟩],
    calibPresent := true, tfHasTransform := true,
    tfLookup := fun _ _ => true, playResult := .ok () }

/-- A session like `sessHesai` but with no IMU sensor at all. -/
def sessHesaiNoImu : Session :=
  { uuid := "s4", has_bags := true,
    lidars_3d := [⟨"hesai_xt32", "hesai_frame", some "/hesai/points"⟩],
    imus := [], calibPresent := true, tfHasTransform := true,
    tfLookup := fun _ _ => true, playResult := .ok () }

/-- A session without bag files. -/
def sessNoBags : Session :=
  { uuid := "s5", has_bags := false,
    lidars_3d := [⟨"velodyne_vlp16", "velodyne", some "/velodyne_points"⟩],
    imus := [⟨"xsens_imu", "imu_link", some "/imu/data"⟩],
    calibPresent := true, tfHasTransform := true,
    tfLookup := fun _ _ => true, playResult := .ok () }

/-- A valid session whose replay is cut short by a user interrupt
(`KeyboardInterrupt` during `xb.session.play`). -/
def sessInterrupt : Session :=
  { uuid := "s6", has_bags := true,
    lidars_3d := [⟨"velodyne_vlp16", "velodyne", some "/velodyne_points"⟩],
    imus := [⟨"xsens_imu", "imu_link", some "/imu/data"⟩],
    calibPresent := true, tfHasTransform := true,
    tfLookup := fun _ _ => true, playResult := .error .interrupt }

/-! ## Filesystem lemmas -/

theorem FS.sizeOf?_write_self (fs : FS) (p : String) (n : Nat) :
    (fs.write p n).sizeOf? p = some n := by
  induction fs with
  | nil => simp [FS.write, FS.sizeOf?]
  | cons e rest ih =>
    obtain ⟨q, m⟩ := e
    by_cases h : q = p
    · simp [FS.write, h, FS.sizeOf?]
    · simp [FS.write, h, FS.sizeOf?, ih]

theorem FS.sizeOf?_write_ne (fs : FS) {p q : String} (n : Nat) (h : q ≠ p) :
    (fs.write q n).sizeOf? p = fs.sizeOf? p := by
  induction fs with
  | nil => simp [FS.write, FS.sizeOf?, h]
  | cons e rest ih =>
    obtain ⟨r, m⟩ := e
    by_cases hr : r = q
    · subst hr
      simp [FS.write, FS.sizeOf?, h]
    · simp [FS.write, hr, FS.sizeOf?, ih]

theorem FS.fileExists_write_self (fs : FS) (p : String) (n : Nat) :
    (fs.write p n).fileExists p = true := by
  simp [FS.fileExists, FS.sizeOf?_write_self]

theorem FS.fileNonempty_write_pos (fs : FS) (p : String) {n : Nat} (h : 0 < n) :
    (fs.write p n).fileNonempty p = true := by
  simp [FS.fileNonempty, FS.sizeOf?_write_self, h]

theorem FS.fileExists_write_ne (fs : FS) {p q : String} (n : Nat) (h : q ≠ p) :
    (fs.write q n).fileExists p = fs.fileExists p := by
  simp [FS.fileExists, FS.sizeOf?_write_ne fs n h]

theorem FS.fileNonempty_write_ne (fs : FS) {p q : String} (n : Nat) (h : q ≠ p) :
    (fs.write q n).fileNonempty p = fs.fileNonempty p := by
  simp [FS.fileNonempty, FS.sizeOf?_write_ne fs n h]

theorem FS.fileExists_of_fileNonempty {fs : FS} {p : String}
    (h : fs.fileNonempty p = true) : fs.fileExists p = true := by
  unfold FS.fileNonempty at h
  unfold FS.fileExists
  cases hs : fs.sizeOf? p <;> simp [hs] at h ⊢

/-! ## Path lemmas -/

theorem string_eq_of_data_eq {a b : String} (h : a.data = b.data) : a = b := by
  cases a; cases b; simp_all

theorem cfgPathOf_data (u : String) :
    (cfgPathOf u).data = u.data ++ ("/processed/liosam/liosam_config.yaml").data := by
  simp [cfgPathOf, String.data_append]

theorem bagPathOf_data (u : String) :
    (bagPathOf u).data = u.data ++ ("/processed/liosam/liosam_processed.bag").data := by
  simp [bagPathOf, String.data_append]

theorem cfgPathOf_inj {u v : String} (h : cfgPathOf u = cfgPathOf v) : u = v := by
  have hd := congrArg String.data h
  rw [cfgPathOf_data, cfgPathOf_data] at hd
  exact string_eq_of_data_eq (List.append_cancel_right hd)

theorem bagPathOf_inj {u v : String} (h : bagPathOf u = bagPathOf v) : u = v := by
  have hd := congrArg String.data h
  rw [bagPathOf_data, bagPathOf_data] at hd
  exact string_eq_of_data_eq (List.append_cancel_right hd)

theorem cfgPathOf_ne_bagPathOf (u v : String) : cfgPathOf u ≠ bagPathOf v := by
  intro h
  have hd := congrArg String.data h
  rw [cfgPathOf_data, bagPathOf_data] at hd
  have h1 := congrArg List.getLast? hd
  rw [List.getLast?_append_of_ne_nil _ (by decide),
      List.getLast?_append_of_ne_nil _ (by decide)] at h1
  revert h1
  decide

/-! ## Stage-body case analysis -/

theorem generate_config_cases (s : Session) (d : String) (fs : FS) :
    (∃ m, generate_config s d fs = (fs, .error (.exc m))) ∨
    generate_config s d fs =
      (fs.write (d ++ "/liosam_config.yaml") 1, .ok [d ++ "/liosam_config.yaml"]) := by
  unfold generate_config
  dsimp only
  repeat' split
  all_goals try exact Or.inr rfl
  all_goals try exact Or.inl ⟨_, rfl⟩
  rename_i e heq
  unfold load_lidar_preset at heq
  split at heq
  · cases heq
  · cases heq
    exact Or.inl ⟨_, rfl⟩

theorem liosam_processor_cases (s : Session) (d : String) (fs : FS) :
    (∃ m, liosam_processor s d fs = (fs, .error (.exc m), [])) ∨
    liosam_processor s d fs =
      ((fs.write (d ++ "/liosam_processed.bag") 0).write (d ++ "/liosam_processed.bag") 1,
        .ok [d ++ "/liosam_processed.bag"],
        [.procStart, .recOpen, .play, .recClose, .procTerm]) ∨
    (∃ e, s.playResult = .error e ∧ liosam_processor s d fs =
      ((fs.write (d ++ "/liosam_processed.bag") 0).write (d ++ "/liosam_processed.bag") 1,
        .error e,
        [.procStart, .recOpen, .play, .recClose, .procTerm])) := by
  unfold liosam_processor
  dsimp only
  repeat' split
  all_goals try exact Or.inl ⟨_, rfl⟩
  all_goals try exact Or.inr (Or.inl rfl)
  rename_i e heq
  exact Or.inr (Or.inr ⟨e, heq, rfl⟩)

/-! ## Engine-level case analysis -/

theorem registry_find_cfg :
    registry.find? (fun st => st.name == "liosam_config") = some cfgStageSpec := rfl

theorem registry_find_lio :
    registry.find? (fun st => st.name == "liosam") = some lioStageSpec := rfl

theorem pipelineRun_cfg_cases (s : Session) (g : String) (force : Bool) (fs : FS) :
    (pipelineRun s "liosam_config" g force fs =
        ⟨.Skipped, [artPath s g "liosam_config.yaml"], false, fs, []⟩
      ∧ (!force && fs.fileNonempty (artPath s g "liosam_config.yaml")) = true) ∨
    ((!force && fs.fileNonempty (artPath s g "liosam_config.yaml")) = false ∧
      ((∃ m, pipelineRun s "liosam_config" g force fs =
          ⟨.Failed (.exc m), [], true, fs, []⟩
        ∧ (generate_config s (sessionOutDir s g) fs).2 = .error (.exc m)) ∨
       (pipelineRun s "liosam_config" g force fs =
          ⟨.Succeeded, [artPath s g "liosam_config.yaml"], true,
            fs.write (artPath s g "liosam_config.yaml") 1, []⟩
        ∧ (generate_config s (sessionOutDir s g) fs).2 =
            .ok [artPath s g "liosam_config.yaml"]))) := by
  unfold pipelineRun
  rw [registry_find_cfg]
  dsimp only [cfgStageSpec]
  by_cases hskip :
      (!force && fs.fileNonempty (artPath s g "liosam_config.yaml")) = true
  · left
    refine ⟨?_, hskip⟩
    rw [show (sessionOutDir s g ++ "/" ++ "liosam_config.yaml") =
        artPath s g "liosam_config.yaml" from rfl, hskip]
    simp
  · right
    rw [Bool.not_eq_true] at hskip
    refine ⟨hskip, ?_⟩
    rw [show (sessionOutDir s g ++ "/" ++ "liosam_config.yaml") =
        artPath s g "liosam_config.yaml" from rfl, hskip]
    rcases generate_config_cases s (sessionOutDir s g) fs with ⟨m, hm⟩ | hok
    · left
      exact ⟨m, by simp [hm], by rw [hm]⟩
    · right
      have : artPath s g "liosam_config.yaml" =
          sessionOutDir s g ++ "/liosam_config.yaml" := by
        simp [artPath, sessionOutDir, String.append_assoc]
      rw [this]
      exact ⟨by simp [hok, FS.fileExists_write_self], by rw [hok]⟩

theorem pipelineRun_lio_cases (s : Session) (g : String) (force : Bool) (fs : FS) :
    (pipelineRun s "liosam" g force fs =
        ⟨.Skipped, [artPath s g "liosam_processed.bag"], false, fs, []⟩
      ∧ (!force && fs.fileNonempty (artPath s g "liosam_processed.bag")) = true) ∨
    ((!force && fs.fileNonempty (artPath s g "liosam_processed.bag")) = false ∧
      ((∃ m, pipelineRun s "liosam" g force fs =
          ⟨.Failed (.exc m), [], true, fs, []⟩
        ∧ (liosam_processor s (sessionOutDir s g) fs).2.1 = .error (.exc m)) ∨
       (pipelineRun s "liosam" g force fs =
          ⟨.Succeeded, [artPath s g "liosam_processed.bag"], true,
            (fs.write (artPath s g "liosam_processed.bag") 0).write
              (artPath s g "liosam_processed.bag") 1,
            [.procStart, .recOpen, .play, .recClose, .procTerm]⟩
        ∧ (liosam_processor s (sessionOutDir s g) fs).2.1 =
            .ok [artPath s g "liosam_processed.bag"]) ∨
       (∃ e, s.playResult = .error e ∧
         pipelineRun s "liosam" g force fs =
          ⟨.Failed e, [], true,
            (fs.write (artPath s g "liosam_processed.bag") 0).write
              (artPath s g "liosam_processed.bag") 1,
            [.procStart, .recOpen, .play, .recClose, .procTerm]⟩
        ∧ (liosam_processor s (sessionOutDir s g) fs).2.1 = .error e))) := by
  unfold pipelineRun
  rw [registry_find_lio]
  dsimp only [lioStageSpec]
  by_cases hskip :
      (!force && fs.fileNonempty (artPath s g "liosam_processed.bag")) = true
  · left
    refine ⟨?_, hskip⟩
    rw [show (sessionOutDir s g ++ "/" ++ "liosam_processed.bag") =
        artPath s g "liosam_processed.bag" from rfl, hskip]
    simp
  · right
    rw [Bool.not_eq_true] at hskip
    refine ⟨hskip, ?_⟩
    rw [show (sessionOutDir s g ++ "/" ++ "liosam_processed.bag") =
        artPath s g "liosam_processed.bag" from rfl, hskip]
    have hbag : artPath s g "liosam_processed.bag" =
        sessionOutDir s g ++ "/liosam_processed.bag" := by
      simp [artPath, sessionOutDir, String.append_assoc]
    rcases liosam_processor_cases s (sessionOutDir s g) fs with
      ⟨m, hm⟩ | hok | ⟨e, hp, he⟩
    · left
      exact ⟨m, by simp [hm], by rw [hm]⟩
    · right; left
      rw [hbag]
      exact ⟨by simp [hok, FS.fileExists_write_self], by rw [hok]⟩
    · right; right
      refine ⟨e, hp, ?_, ?_⟩
      · rw [hbag]
        simp [he]
      · rw [he]

/-! ## Derived engine lemmas -/

theorem artPath_cfg_eq (s : Session) :
    artPath s "liosam" "liosam_config.yaml" = cfgPathOf s.uuid := rfl

theorem artPath_bag_eq (s : Session) :
    artPath s "liosam" "liosam_processed.bag" = bagPathOf s.uuid := rfl

theorem pipelineRun_cfg_fs_confined (s : Session) (g : String) (force : Bool)
    (fs : FS) (p : String) (hp : p ≠ artPath s g "liosam_config.yaml") :
    ((pipelineRun s "liosam_config" g force fs).fs).sizeOf? p = fs.sizeOf? p := by
  rcases pipelineRun_cfg_cases s g force fs with ⟨he, _⟩ | ⟨_, ⟨m, he, _⟩ | ⟨he, _⟩⟩ <;>
    rw [he]
  · exact FS.sizeOf?_write_ne fs 1 (Ne.symm hp)

theorem pipelineRun_lio_fs_confined (s : Session) (g : String) (force : Bool)
    (fs : FS) (p : String) (hp : p ≠ artPath s g "liosam_processed.bag") :
    ((pipelineRun s "liosam" g force fs).fs).sizeOf? p = fs.sizeOf? p := by
  rcases pipelineRun_lio_cases s g force fs with
    ⟨he, _⟩ | ⟨_, ⟨m, he, _⟩ | ⟨he, _⟩ | ⟨e, _, he, _⟩⟩ <;> rw [he]
  · rw [FS.sizeOf?_write_ne _ 1 (Ne.symm hp), FS.sizeOf?_write_ne fs 0 (Ne.symm hp)]
  · rw [FS.sizeOf?_write_ne _ 1 (Ne.symm hp), FS.sizeOf?_write_ne fs 0 (Ne.symm hp)]

theorem pipelineRun_cfg_ok_cfgExists (s : Session) (g : String) (force : Bool)
    (fs : FS)
    (h : ((pipelineRun s "liosam_config" g force fs).status).isOk = true) :
    ((pipelineRun s "liosam_config" g force fs).fs).fileExists
      (artPath s g "liosam_config.yaml") = true := by
  rcases pipelineRun_cfg_cases s g force fs with ⟨he, hc⟩ | ⟨_, ⟨m, he, _⟩ | ⟨he, _⟩⟩
  · rw [he]
    exact FS.fileExists_of_fileNonempty (Bool.and_eq_true .. |>.mp hc).2
  · rw [he] at h
    cases h
  · rw [he]
    exact FS.fileExists_write_self ..

theorem pipelineRun_cfg_fails (s : Session) (force : Bool) (fs : FS)
    (hb : cfgBodyFails s)
    (hfresh : fs.fileNonempty (cfgPathOf s.uuid) = false) :
    ∃ m, pipelineRun s "liosam_config" "liosam" force fs =
      ⟨.Failed (.exc m), [], true, fs, []⟩ := by
  rcases pipelineRun_cfg_cases s "liosam" force fs with
    ⟨_, hc⟩ | ⟨_, ⟨m, he, _⟩ | ⟨_, hgen⟩⟩
  · rw [artPath_cfg_eq, hfresh] at hc
    simp at hc
  · exact ⟨m, he⟩
  · obtain ⟨m, hm⟩ := hb fs
    rw [hm] at hgen
    cases hgen

theorem pipelineRun_lio_fails (s : Session) (force : Bool) (fs : FS)
    (hb : lioBodyFails s)
    (hfresh : fs.fileNonempty (bagPathOf s.uuid) = false) :
    ∃ m, (pipelineRun s "liosam" "liosam" force fs).status = .Failed (.exc m) := by
  rcases pipelineRun_lio_cases s "liosam" force fs with
    ⟨_, hc⟩ | ⟨_, ⟨m, he, _⟩ | ⟨_, hbody⟩ | ⟨e, _, he, hbody⟩⟩
  · rw [artPath_bag_eq, hfresh] at hc
    simp at hc
  · exact ⟨m, by rw [he]⟩
  · obtain ⟨m, hm⟩ := hb fs
    rw [hm] at hbody
    cases hbody
  · obtain ⟨m, hm⟩ := hb fs
    rw [hm] at hbody
    cases hbody
    exact ⟨m, by rw [he]⟩

/-! ## Batch-step case analysis -/

theorem batchStep_cases (force : Bool) (s : Session) (st : BatchState) :
    (batchStep force s st = .stop
        ⟨st.success, st.fail,
          st.trace ++ [⟨s.uuid, "liosam_config",
            (pipelineRun s "liosam_config" "liosam" force st.fs).status⟩],
          (pipelineRun s "liosam_config" "liosam" force st.fs).fs⟩
      ∧ (pipelineRun s "liosam_config" "liosam" force st.fs).status =
          .Failed .interrupt) ∨
    ((∃ m, (pipelineRun s "liosam_config" "liosam" force st.fs).status =
        .Failed (.exc m)) ∧
      batchStep force s st = .next
        ⟨st.success, st.fail + 1,
          st.trace ++ [⟨s.uuid, "liosam_config",
            (pipelineRun s "liosam_config" "liosam" force st.fs).status⟩],
          (pipelineRun s "liosam_config" "liosam" force st.fs).fs⟩) ∨
    (((pipelineRun s "liosam_config" "liosam" force st.fs).status).isOk = true ∧
      ((batchStep force s st = .stop
          ⟨st.success, st.fail,
            st.trace ++ [⟨s.uuid, "liosam_config",
              (pipelineRun s "liosam_config" "liosam" force st.fs).status⟩,
              ⟨s.uuid, "liosam",
                (pipelineRun s "liosam" "liosam" force
                  (pipelineRun s "liosam_config" "liosam" force st.fs).fs).status⟩],
            (pipelineRun s "liosam" "liosam" force
              (pipelineRun s "liosam_config" "liosam" force st.fs).fs).fs⟩
        ∧ (pipelineRun s "liosam" "liosam" force
            (pipelineRun s "liosam_config" "liosam" force st.fs).fs).status =
            .Failed .interrupt) ∨
       ((∃ m, (pipelineRun s "liosam" "liosam" force
            (pipelineRun s "liosam_config" "liosam" force st.fs).fs).status =
            .Failed (.exc m)) ∧
         batchStep force s st = .next
          ⟨st.success, st.fail + 1,
            st.trace ++ [⟨s.uuid, "liosam_config",
              (pipelineRun s "liosam_config" "liosam" force st.fs).status⟩,
              ⟨s.uuid, "liosam",
                (pipelineRun s "liosam" "liosam" force
                  (pipelineRun s "liosam_config" "liosam" force st.fs).fs).status⟩],
            (pipelineRun s "liosam" "liosam" force
              (pipelineRun s "liosam_config" "liosam" force st.fs).fs).fs⟩) ∨
       (((pipelineRun s "liosam" "liosam" force
            (pipelineRun s "liosam_config" "liosam" force st.fs).fs).status).isOk
            = true ∧
         batchStep force s st = .next
          ⟨st.success + 1, st.fail,
            st.trace ++ [⟨s.uuid, "liosam_config",
              (pipelineRun s "liosam_config" "liosam" force st.fs).status⟩,
              ⟨s.uuid, "liosam",
                (pipelineRun s "liosam" "liosam" force
                  (pipelineRun s "liosam_config" "liosam" force st.fs).fs).status⟩],
            (pipelineRun s "liosam" "liosam" force
              (pipelineRun s "liosam_config" "liosam" force st.fs).fs).fs⟩))) := by
  unfold batchStep
  dsimp only
  cases h1 : (pipelineRun s "liosam_config" "liosam" force st.fs).status with
  | Skipped =>
    right; right
    refine ⟨rfl, ?_⟩
    cases h2 : (pipelineRun s "liosam" "liosam" force
        (pipelineRun s "liosam_config" "liosam" force st.fs).fs).status with
    | Skipped => right; right; exact ⟨rfl, by simp⟩
    | Succeeded => right; right; exact ⟨rfl, by simp⟩
    | Failed e =>
      cases e with
      | exc m => right; left; exact ⟨⟨m, rfl⟩, by simp⟩
      | interrupt => left; exact ⟨by simp, rfl⟩
  | Succeeded =>
    right; right
    refine ⟨rfl, ?_⟩
    cases h2 : (pipelineRun s "liosam" "liosam" force
        (pipelineRun s "liosam_config" "liosam" force st.fs).fs).status with
    | Skipped => right; right; exact ⟨rfl, by simp⟩
    | Succeeded => right; right; exact ⟨rfl, by simp⟩
    | Failed e =>
      cases e with
      | exc m => right; left; exact ⟨⟨m, rfl⟩, by simp⟩
      | interrupt => left; exact ⟨by simp, rfl⟩
  | Failed e =>
    cases e with
    | exc m => right; left; exact ⟨⟨m, rfl⟩, rfl⟩
    | interrupt => left; exact ⟨rfl, rfl⟩

theorem FS.fileNonempty_congr {fs1 fs2 : FS} {p : String}
    (h : fs1.sizeOf? p = fs2.sizeOf? p) :
    fs1.fileNonempty p = fs2.fileNonempty p := by
  unfold FS.fileNonempty
  rw [h]

theorem FS.fileExists_congr {fs1 fs2 : FS} {p : String}
    (h : fs1.sizeOf? p = fs2.sizeOf? p) :
    fs1.fileExists p = fs2.fileExists p := by
  unfold FS.fileExists
  rw [h]

theorem batchStep_good (force : Bool) (s : Session) (st : BatchState)
    (hg : goodSession force s) :
    ∃ c l, c.isOk = true ∧ l.isOk = true ∧
      batchStep force s st = .next
        ⟨st.success + 1, st.fail,
          st.trace ++ [⟨s.uuid, "liosam_config", c⟩, ⟨s.uuid, "liosam", l⟩],
          (pipelineRun s "liosam" "liosam" force
            (pipelineRun s "liosam_config" "liosam" force st.fs).fs).fs⟩ := by
  have hok1 := hg.1 st.fs
  have hex : ((pipelineRun s "liosam_config" "liosam" force st.fs).fs).fileExists
      (cfgPathOf s.uuid) = true := by
    rw [← artPath_cfg_eq]
    exact pipelineRun_cfg_ok_cfgExists s "liosam" force st.fs hok1
  have hok2 := hg.2 (pipelineRun s "liosam_config" "liosam" force st.fs).fs hex
  rcases batchStep_cases force s st with
    ⟨_, hs⟩ | ⟨⟨m, hm⟩, _⟩ | ⟨_, ⟨_, hs⟩ | ⟨⟨m, hm⟩, _⟩ | ⟨_, hn⟩⟩
  · rw [hs] at hok1
    cases hok1
  · rw [hm] at hok1
    cases hok1
  · rw [hs] at hok2
    cases hok2
  · rw [hm] at hok2
    cases hok2
  · exact ⟨_, _, hok1, hok2, hn⟩

theorem batchStep_badcfg (force : Bool) (s : Session) (st : BatchState)
    (hb : cfgBodyFails s)
    (hfresh : st.fs.fileNonempty (cfgPathOf s.uuid) = false) :
    ∃ m, batchStep force s st = .next
      ⟨st.success, st.fail + 1,
        st.trace ++ [⟨s.uuid, "liosam_config", .Failed (.exc m)⟩], st.fs⟩ := by
  obtain ⟨m, hr⟩ := pipelineRun_cfg_fails s force st.fs hb hfresh
  rcases batchStep_cases force s st with ⟨_, hs⟩ | ⟨_, hn⟩ | ⟨hok, _⟩
  · rw [hr] at hs
    cases hs
  · refine ⟨m, ?_⟩
    rw [hr] at hn
    exact hn
  · rw [hr] at hok
    cases hok

theorem batchStep_badlio (force : Bool) (s : Session) (st : BatchState)
    (hcfg : ∀ fs : FS,
      ((pipelineRun s "liosam_config" "liosam" force fs).status).isOk = true)
    (hb : lioBodyFails s)
    (hfresh : st.fs.fileNonempty (bagPathOf s.uuid) = false) :
    ∃ c m, c.isOk = true ∧ batchStep force s st = .next
      ⟨st.success, st.fail + 1,
        st.trace ++ [⟨s.uuid, "liosam_config", c⟩,
          ⟨s.uuid, "liosam", .Failed (.exc m)⟩],
        (pipelineRun s "liosam" "liosam" force
          (pipelineRun s "liosam_config" "liosam" force st.fs).fs).fs⟩ := by
  have hok1 := hcfg st.fs
  have hfresh1 : ((pipelineRun s "liosam_config" "liosam" force st.fs).fs).fileNonempty
      (bagPathOf s.uuid) = false := by
    rw [FS.fileNonempty_congr (pipelineRun_cfg_fs_confined s "liosam" force st.fs
      (bagPathOf s.uuid) (by rw [artPath_cfg_eq]; exact (cfgPathOf_ne_bagPathOf s.uuid s.uuid).symm))]
    exact hfresh
  obtain ⟨m, hm⟩ := pipelineRun_lio_fails s force
    (pipelineRun s "liosam_config" "liosam" force st.fs).fs hb hfresh1
  rcases batchStep_cases force s st with
    ⟨_, hs⟩ | ⟨⟨m', hm'⟩, _⟩ | ⟨_, ⟨_, hs⟩ | ⟨⟨m', hm'⟩, hn⟩ | ⟨hok2, _⟩⟩
  · rw [hs] at hok1
    cases hok1
  · rw [hm'] at hok1
    cases hok1
  · rw [hm] at hs
    cases hs
  · rw [hm] at hm'
    cases hm'
    refine ⟨_, m, hok1, ?_⟩
    rw [hm] at hn
    exact hn
  · rw [hm] at hok2
    cases hok2

/-! ## Batch-loop lemmas -/

theorem uuid_ne_paths {u v : String} (h : u ≠ v) :
    cfgPathOf u ≠ cfgPathOf v ∧ cfgPathOf u ≠ bagPathOf v ∧
    bagPathOf u ≠ cfgPathOf v ∧ bagPathOf u ≠ bagPathOf v :=
  ⟨fun hc => h (cfgPathOf_inj hc),
   cfgPathOf_ne_bagPathOf u v,
   fun hc => (cfgPathOf_ne_bagPathOf v u) hc.symm,
   fun hb => h (bagPathOf_inj hb)⟩

theorem fs_confined_both (s : Session) (force : Bool) (fs : FS) (p : String)
    (h1 : p ≠ cfgPathOf s.uuid) (h2 : p ≠ bagPathOf s.uuid) :
    ((pipelineRun s "liosam" "liosam" force
        (pipelineRun s "liosam_config" "liosam" force fs).fs).fs).sizeOf? p
      = fs.sizeOf? p ∧
    ((pipelineRun s "liosam_config" "liosam" force fs).fs).sizeOf? p
      = fs.sizeOf? p := by
  have hc := pipelineRun_cfg_fs_confined s "liosam" force fs p
    (by rw [artPath_cfg_eq]; exact h1)
  refine ⟨?_, hc⟩
  rw [pipelineRun_lio_fs_confined s "liosam" force _ p
    (by rw [artPath_bag_eq]; exact h2), hc]

theorem batchLoop_good (force : Bool) :
    ∀ (l : List Session) (st : BatchState),
    (∀ s ∈ l, goodSession force s) →
    ∃ st', batchLoop force l st = (st', false) ∧
      st'.success = st.success + l.length ∧
      st'.fail = st.fail ∧
      (∀ e ∈ st.trace, e ∈ st'.trace) ∧
      (∀ s ∈ l, ∃ stt, TraceEntry.mk s.uuid "liosam_config" stt ∈ st'.trace) ∧
      (∀ e ∈ st'.trace, e ∈ st.trace ∨ ∃ s ∈ l, e.uuid = s.uuid) ∧
      (∀ p : String, (∀ s ∈ l, p ≠ cfgPathOf s.uuid ∧ p ≠ bagPathOf s.uuid) →
        st'.fs.sizeOf? p = st.fs.sizeOf? p) := by
  intro l
  induction l with
  | nil =>
    intro st _
    exact ⟨st, rfl, by simp, rfl, fun e he => he, by simp,
      fun e he => Or.inl he, fun p _ => rfl⟩
  | cons s rest ih =>
    intro st hg
    obtain ⟨c, lst, hc, hl, hstep⟩ := batchStep_good force s st (hg s (by simp))
    obtain ⟨st', hloop, hsucc, hfail, hmono, hattempt, hnew, hfs⟩ :=
      ih ⟨st.success + 1, st.fail,
          st.trace ++ [⟨s.uuid, "liosam_config", c⟩, ⟨s.uuid, "liosam", lst⟩],
          (pipelineRun s "liosam" "liosam" force
            (pipelineRun s "liosam_config" "liosam" force st.fs).fs).fs⟩
        (fun t ht => hg t (by simp [ht]))
    refine ⟨st', ?_, by simpa [Nat.add_comm, Nat.add_assoc, Nat.add_left_comm] using hsucc,
      hfail, ?_, ?_, ?_, ?_⟩
    · simp only [batchLoop, hstep]
      exact hloop
    · intro e he
      exact hmono e (by simp [he])
    · intro t ht
      rcases List.mem_cons.mp ht with rfl | ht'
      · exact ⟨c, hmono _ (by simp)⟩
      · exact hattempt t ht'
    · intro e he
      rcases hnew e he with hold | ⟨t, ht, hu⟩
      · rcases List.mem_append.mp hold with h1 | h2
        · exact Or.inl h1
        · right
          refine ⟨s, by simp, ?_⟩
          rcases List.mem_cons.mp h2 with rfl | h3
          · rfl
          · rcases List.mem_singleton.mp h3 with rfl
            rfl
      · exact Or.inr ⟨t, by simp [ht], hu⟩
    · intro p hp
      rw [hfs p (fun t ht => hp t (by simp [ht]))]
      exact (fs_confined_both s force st.fs p (hp s (by simp)).1 (hp s (by simp)).2).1

theorem batchLoop_append (force : Bool) :
    ∀ (l1 l2 : List Session) (st st1 : BatchState),
    batchLoop force l1 st = (st1, false) →
    batchLoop force (l1 ++ l2) st = batchLoop force l2 st1 := by
  intro l1
  induction l1 with
  | nil =>
    intro l2 st st1 h
    obtain rfl : st = st1 := congrArg Prod.fst h
    rfl
  | cons s rest ih =>
    intro l2 st st1 h
    rw [List.cons_append]
    simp only [batchLoop] at h ⊢
    cases hstep : batchStep force s st with
    | next st2 =>
      rw [hstep] at h
      exact ih l2 st2 st1 h
    | stop st2 =>
      rw [hstep] at h
      simp at h

theorem batchLoop_no_liosam (force : Bool) (u : String) :
    ∀ (l : List Session) (st : BatchState),
    (∀ s ∈ l, s.uuid = u → cfgBodyFails s) →
    st.fs.fileNonempty (cfgPathOf u) = false →
    (∀ stt, TraceEntry.mk u "liosam" stt ∉ st.trace) →
    ∀ stt, TraceEntry.mk u "liosam" stt ∉ (batchLoop force l st).1.trace := by
  intro l
  induction l with
  | nil =>
    intro st _ _ hno
    exact hno
  | cons s rest ih =>
    intro st hcfg hfresh hno
    by_cases hu : s.uuid = u
    · obtain ⟨m, hstep⟩ :=
        batchStep_badcfg force s st (hcfg s (by simp) hu) (by rw [hu]; exact hfresh)
      simp only [batchLoop, hstep]
      refine ih _ (fun t ht => hcfg t (by simp [ht])) hfresh ?_
      intro stt hmem
      rcases List.mem_append.mp hmem with h1 | h2
      · exact hno stt h1
      · have h3 := List.mem_singleton.mp h2
        simp [TraceEntry.mk.injEq] at h3
    · have hpaths := uuid_ne_paths (fun h => hu h.symm)
      have hfresh1 : ∀ fs1 : FS,
          fs1.sizeOf? (cfgPathOf u) = st.fs.sizeOf? (cfgPathOf u) →
          fs1.fileNonempty (cfgPathOf u) = false :=
        fun fs1 h1 => by rw [FS.fileNonempty_congr h1]; exact hfresh
      have htr : ∀ (extra : List TraceEntry),
          (∀ e ∈ extra, e.uuid = s.uuid) →
          ∀ stt, TraceEntry.mk u "liosam" stt ∉ st.trace ++ extra := by
        intro extra hextra stt hmem
        rcases List.mem_append.mp hmem with h1 | h2
        · exact hno stt h1
        · exact hu (hextra _ h2).symm
      rcases batchStep_cases force s st with
        ⟨hstep, _⟩ | ⟨_, hstep⟩ | ⟨_, ⟨hstep, _⟩ | ⟨_, hstep⟩ | ⟨_, hstep⟩⟩ <;>
        simp only [batchLoop, hstep]
      · exact htr _ (by intro e he; rcases List.mem_singleton.mp he with rfl; rfl)
      · refine ih _ (fun t ht => hcfg t (by simp [ht]))
          (hfresh1 _ (pipelineRun_cfg_fs_confined s "liosam" force st.fs _
            (by rw [artPath_cfg_eq]; exact hpaths.1)))
          (htr _ (by intro e he; rcases List.mem_singleton.mp he with rfl; rfl))
      · exact htr _ (by
          intro e he
          rcases List.mem_cons.mp he with rfl | he2
          · rfl
          · rcases List.mem_singleton.mp he2 with rfl; rfl)
      · refine ih _ (fun t ht => hcfg t (by simp [ht]))
          (hfresh1 _ (fs_confined_both s force st.fs _ hpaths.1 hpaths.2.1).1)
          (htr _ (by
            intro e he
            rcases List.mem_cons.mp he with rfl | he2
            · rfl
            · rcases List.mem_singleton.mp he2 with rfl; rfl))
      · refine ih _ (fun t ht => hcfg t (by simp [ht]))
          (hfresh1 _ (fs_confined_both s force st.fs _ hpaths.1 hpaths.2.1).1)
          (htr _ (by
            intro e he
            rcases List.mem_cons.mp he with rfl | he2
            · rfl
            · rcases List.mem_singleton.mp he2 with rfl; rfl))

/-! ## Trace-ordering lemmas -/

theorem tracePrec_nil : tracePrec [] := by
  intro i e h
  simp at h

theorem tracePrec_append_one (tr : List TraceEntry) (c : TraceEntry)
    (hcs : c.stage = "liosam_config") (h : tracePrec tr) :
    tracePrec (tr ++ [c]) := by
  intro i x hx hstage
  by_cases hi : i < tr.length
  · rw [List.getElem?_append_left hi] at hx
    obtain ⟨h1, p, hp, h2⟩ := h i x hx hstage
    refine ⟨h1, p, ?_, h2⟩
    rw [List.getElem?_append_left (by omega)]
    exact hp
  · have hlen : i < tr.length + 1 := by
      by_contra hc
      rw [List.getElem?_eq_none (by simp; omega)] at hx
      cases hx
    have hi2 : i = tr.length := by omega
    subst hi2
    rw [List.getElem?_append_right (Nat.le_refl _)] at hx
    simp at hx
    subst hx
    rw [hcs] at hstage
    simp at hstage

theorem tracePrec_append_two (tr : List TraceEntry) (c l : TraceEntry)
    (hcu : c.uuid = l.uuid) (hcs : c.stage = "liosam_config")
    (hok : c.status.isOk = true) (h : tracePrec tr) :
    tracePrec (tr ++ [c, l]) := by
  intro i x hx hstage
  by_cases hi : i < tr.length
  · rw [List.getElem?_append_left hi] at hx
    obtain ⟨h1, p, hp, h2⟩ := h i x hx hstage
    refine ⟨h1, p, ?_, h2⟩
    rw [List.getElem?_append_left (by omega)]
    exact hp
  · have hlen : i < tr.length + 2 := by
      by_contra hc
      rw [List.getElem?_eq_none (by simp; omega)] at hx
      cases hx
    rcases Nat.lt_or_ge i (tr.length + 1) with hi1 | hi2
    · have : i = tr.length := by omega
      subst this
      rw [List.getElem?_append_right (Nat.le_refl _)] at hx
      simp at hx
      subst hx
      rw [hcs] at hstage
      simp at hstage
    · have : i = tr.length + 1 := by omega
      subst this
      rw [List.getElem?_append_right (by omega)] at hx
      have : tr.length + 1 - tr.length = 1 := by omega
      rw [this] at hx
      simp at hx
      subst hx
      refine ⟨by omega, c, ?_, hcu, hcs, hok⟩
      have : tr.length + 1 - 1 = tr.length := by omega
      rw [this, List.getElem?_append_right (Nat.le_refl _)]
      simp

theorem batchLoop_prec (force : Bool) :
    ∀ (l : List Session) (st : BatchState),
    tracePrec st.trace → tracePrec (batchLoop force l st).1.trace := by
  intro l
  induction l with
  | nil =>
    intro st h
    exact h
  | cons s rest ih =>
    intro st h
    rcases batchStep_cases force s st with
      ⟨hstep, _⟩ | ⟨_, hstep⟩ | ⟨hok1, ⟨hstep, _⟩ | ⟨_, hstep⟩ | ⟨_, hstep⟩⟩ <;>
      simp only [batchLoop, hstep]
    · exact tracePrec_append_one st.trace _ rfl h
    · exact ih _ (tracePrec_append_one st.trace _ rfl h)
    · exact tracePrec_append_two st.trace _ _ rfl rfl hok1 h
    · exact ih _ (tracePrec_append_two st.trace _ _ rfl rfl hok1 h)
    · exact ih _ (tracePrec_append_two st.trace _ _ rfl rfl hok1 h)

/-! ## Command-level case analysis -/

theorem singleMain_cases (s : Session) (force : Bool) (fs : FS) :
    (s.has_bags = false ∧ singleMain s force fs = (.code 1, [], fs)) ∨
    (s.has_bags = true ∧
      ((∃ m, (pipelineRun s "liosam_config" "liosam2" force fs).status =
          .Failed (.exc m) ∧
         singleMain s force fs = (.code 1,
           [⟨s.uuid, "liosam_config",
             (pipelineRun s "liosam_config" "liosam2" force fs).status⟩],
           (pipelineRun s "liosam_config" "liosam2" force fs).fs)) ∨
       ((pipelineRun s "liosam_config" "liosam2" force fs).status =
          .Failed .interrupt ∧
         singleMain s force fs = (.uncaught .interrupt,
           [⟨s.uuid, "liosam_config",
             (pipelineRun s "liosam_config" "liosam2" force fs).status⟩],
           (pipelineRun s "liosam_config" "liosam2" force fs).fs)) ∨
       (((pipelineRun s "liosam_config" "liosam2" force fs).status).isOk = true ∧
         (((pipelineRun s "liosam" "liosam2" force
              (pipelineRun s "liosam_config" "liosam2" force fs).fs).status =
              .Failed .interrupt ∧
            singleMain s force fs = (.code 130,
              [⟨s.uuid, "liosam_config",
                (pipelineRun s "liosam_config" "liosam2" force fs).status⟩,
               ⟨s.uuid, "liosam",
                (pipelineRun s "liosam" "liosam2" force
                  (pipelineRun s "liosam_config" "liosam2" force fs).fs).status⟩],
              (pipelineRun s "liosam" "liosam2" force
                (pipelineRun s "liosam_config" "liosam2" force fs).fs).fs)) ∨
          (∃ m, (pipelineRun s "liosam" "liosam2" force
              (pipelineRun s "liosam_config" "liosam2" force fs).fs).status =
              .Failed (.exc m) ∧
            singleMain s force fs = (.code 1,
              [⟨s.uuid, "liosam_config",
                (pipelineRun s "liosam_config" "liosam2" force fs).status⟩,
               ⟨s.uuid, "liosam",
                (pipelineRun s "liosam" "liosam2" force
                  (pipelineRun s "liosam_config" "liosam2" force fs).fs).status⟩],
              (pipelineRun s "liosam" "liosam2" force
                (pipelineRun s "liosam_config" "liosam2" force fs).fs).fs)) ∨
          (((pipelineRun s "liosam" "liosam2" force
               (pipelineRun s "liosam_config" "liosam2" force fs).fs).status).isOk
               = true ∧
            singleMain s force fs = (.code 0,
              [⟨s.uuid, "liosam_config",
                (pipelineRun s "liosam_config" "liosam2" force fs).status⟩,
               ⟨s.uuid, "liosam",
                (pipelineRun s "liosam" "liosam2" force
                  (pipelineRun s "liosam_config" "liosam2" force fs).fs).status⟩],
              (pipelineRun s "liosam" "liosam2" force
                (pipelineRun s "liosam_config" "liosam2" force fs).fs).fs)))))) := by
  unfold singleMain
  dsimp only
  cases hb : s.has_bags with
  | false => exact Or.inl ⟨rfl, rfl⟩
  | true =>
    right
    refine ⟨rfl, ?_⟩
    cases h1 : (pipelineRun s "liosam_config" "liosam2" force fs).status with
    | Skipped =>
      right; right
      refine ⟨rfl, ?_⟩
      cases h2 : (pipelineRun s "liosam" "liosam2" force
          (pipelineRun s "liosam_config" "liosam2" force fs).fs).status with
      | Skipped => right; right; exact ⟨rfl, rfl⟩
      | Succeeded => right; right; exact ⟨rfl, rfl⟩
      | Failed e =>
        cases e with
        | exc m => right; left; exact ⟨m, rfl, rfl⟩
        | interrupt => left; exact ⟨rfl, rfl⟩
    | Succeeded =>
      right; right
      refine ⟨rfl, ?_⟩
      cases h2 : (pipelineRun s "liosam" "liosam2" force
          (pipelineRun s "liosam_config" "liosam2" force fs).fs).status with
      | Skipped => right; right; exact ⟨rfl, rfl⟩
      | Succeeded => right; right; exact ⟨rfl, rfl⟩
      | Failed e =>
        cases e with
        | exc m => right; left; exact ⟨m, rfl, rfl⟩
        | interrupt => left; exact ⟨rfl, rfl⟩
    | Failed e =>
      cases e with
      | exc m => left; exact ⟨m, rfl, rfl⟩
      | interrupt => right; left; exact ⟨rfl, rfl⟩

theorem batchMain_ne_nil (sessions : List Session) (force : Bool) (fs : FS)
    (h : sessions ≠ []) :
    batchMain sessions force fs =
      ((if (batchLoop force sessions ⟨0, 0, [], fs⟩).1.fail = 0 then
          ExitOutcome.code 0 else ExitOutcome.code 1),
        (batchLoop force sessions ⟨0, 0, [], fs⟩).1,
        (batchLoop force sessions ⟨0, 0, [], fs⟩).2) := by
  cases sessions with
  | nil => exact absurd rfl h
  | cons s rest => rfl

/-! ## Output-directory content lemmas -/

theorem charsLead_self_append (l m : List Char) :
    charsLead l (l ++ m) = true := by
  induction l with
  | nil => rfl
  | cons a as ih => simp [charsLead, ih]

theorem toList_append (a b : String) : (a ++ b).toList = a.toList ++ b.toList :=
  String.data_append a b

theorem strLead_append (d x : String) :
    charsLead d.toList (d ++ x).toList = true := by
  rw [toList_append]
  exact charsLead_self_append d.toList x.toList

theorem strAppend_left_cancel {d x y : String} (h : d ++ x = d ++ y) : x = y := by
  have hd := congrArg String.data h
  rw [String.data_append, String.data_append] at hd
  exact string_eq_of_data_eq (List.append_cancel_left hd)

theorem FS.under_empty_sizeOf? {fs : FS} {d : String}
    (h : fs.under d = []) {p : String}
    (hp : charsLead d.toList p.toList = true) : fs.sizeOf? p = none := by
  induction fs with
  | nil => rfl
  | cons e rest ih =>
    obtain ⟨q, n⟩ := e
    unfold FS.under at h
    by_cases hq : charsLead d.toList q.toList = true
    · rw [List.filter_cons_of_pos (by simpa using hq)] at h
      cases h
    · rw [List.filter_cons_of_neg (by simpa using hq)] at h
      unfold FS.sizeOf?
      have hqp : ¬(q = p) := fun he => hq (he ▸ hp)
      rw [if_neg hqp]
      exact ih h

theorem FS.write_fresh {fs : FS} {p : String} (h : fs.sizeOf? p = none)
    (n : Nat) : fs.write p n = fs ++ [(p, n)] := by
  induction fs with
  | nil => rfl
  | cons e rest ih =>
    obtain ⟨q, m⟩ := e
    unfold FS.sizeOf? at h
    unfold FS.write
    by_cases hq : q = p
    · rw [if_pos hq] at h
      cases h
    · rw [if_neg hq] at h
      rw [if_neg hq, ih h]
      rfl

theorem FS.sizeOf?_append_singleton_ne {fs : FS} {p q : String} (n : Nat)
    (h : q ≠ p) : (fs ++ [(q, n)]).sizeOf? p = fs.sizeOf? p := by
  induction fs with
  | nil => simp [FS.sizeOf?, h]
  | cons e rest ih =>
    obtain ⟨r, m⟩ := e
    show FS.sizeOf? ((r, m) :: (rest ++ [(q, n)])) p = _
    simp only [FS.sizeOf?]
    by_cases hr : r = p
    · rw [if_pos hr, if_pos hr]
    · rw [if_neg hr, if_neg hr]
      exact ih

theorem FS.write_append_singleton {fs : FS} {p : String} (m n : Nat)
    (h : fs.sizeOf? p = none) :
    (fs ++ [(p, m)]).write p n = fs ++ [(p, n)] := by
  induction fs with
  | nil => simp [FS.write]
  | cons e rest ih =>
    obtain ⟨q, k⟩ := e
    unfold FS.sizeOf? at h
    by_cases hq : q = p
    · rw [if_pos hq] at h
      cases h
    · rw [if_neg hq] at h
      show FS.write ((q, k) :: (rest ++ [(p, m)])) p n = _
      unfold FS.write
      rw [if_neg hq, ih h]
      rfl

theorem FS.under_append (fs gs : FS) (d : String) :
    (fs ++ gs).under d = fs.under d ++ gs.under d := by
  unfold FS.under
  rw [List.filter_append, List.map_append]

/-! ## Claim theorems -/

/-- C9: Artifact filenames are fixed per stage.  Every successful run of
the `liosam_config` stage body returns exactly the single path
`output_dir/liosam_config.yaml`, every successful run of the `liosam`
stage body returns exactly the single path
`output_dir/liosam_processed.bag`, and when the chain started on an
output directory holding no files, the completed two-stage chain leaves
exactly the configuration document and the data-capture sink there. -/
theorem c9_fixed_artifact_filenames
    (s t : Session) (d : String) (fs fs1 gs1 : FS)
    (arts brts : List String) (ev : List Ev)
    (h1 : generate_config s d fs = (fs1, .ok arts))
    (h2 : liosam_processor t d fs1 = (gs1, .ok brts, ev)) :
    arts = [d ++ "/liosam_config.yaml"] ∧
    brts = [d ++ "/liosam_processed.bag"] ∧
    (fs.under d = [] →
      gs1.under d = [d ++ "/liosam_config.yaml", d ++ "/liosam_processed.bag"]) := by
  rcases generate_config_cases s d fs with ⟨m, hm⟩ | hok
  · rw [hm] at h1
    cases h1
  · rw [hok] at h1
    obtain ⟨rfl, rfl⟩ : fs.write (d ++ "/liosam_config.yaml") 1 = fs1 ∧
        ([d ++ "/liosam_config.yaml"] : List String) = arts := by
      have hpair := Prod.mk.injEq .. |>.mp h1
      exact ⟨hpair.1, by cases hpair.2; rfl⟩
    rcases liosam_processor_cases t d (fs.write (d ++ "/liosam_config.yaml") 1) with
      ⟨m, hm⟩ | hok2 | ⟨e, _, he⟩
    · rw [hm] at h2
      cases h2
    · rw [hok2] at h2
      obtain ⟨rfl, rfl⟩ : ((fs.write (d ++ "/liosam_config.yaml") 1).write
            (d ++ "/liosam_processed.bag") 0).write (d ++ "/liosam_processed.bag") 1
            = gs1 ∧
          ([d ++ "/liosam_processed.bag"] : List String) = brts := by
        have hpair := Prod.mk.injEq .. |>.mp h2
        have hpair2 := Prod.mk.injEq .. |>.mp hpair.2
        exact ⟨hpair.1, by cases hpair2.1; rfl⟩
      refine ⟨rfl, rfl, ?_⟩
      intro hfresh
      have hcfgNone : fs.sizeOf? (d ++ "/liosam_config.yaml") = none :=
        FS.under_empty_sizeOf? hfresh (strLead_append d _)
      have hbagNone : fs.sizeOf? (d ++ "/liosam_processed.bag") = none :=
        FS.under_empty_sizeOf? hfresh (strLead_append d _)
      have hne : (d ++ "/liosam_config.yaml") ≠ (d ++ "/liosam_processed.bag") :=
        fun he => absurd (strAppend_left_cancel he) (by decide)
      have hw1 : fs.write (d ++ "/liosam_config.yaml") 1 =
          fs ++ [(d ++ "/liosam_config.yaml", 1)] := FS.write_fresh hcfgNone 1
      have hbagNone1 : (fs ++ [(d ++ "/liosam_config.yaml", 1)]).sizeOf?
          (d ++ "/liosam_processed.bag") = none := by
        rw [FS.sizeOf?_append_singleton_ne 1 hne]
        exact hbagNone
      rw [hw1, FS.write_fresh hbagNone1 0, FS.write_append_singleton 0 1 hbagNone1,
        List.append_assoc, FS.under_append, FS.under_append, hfresh]
      have hpre1 : charsLead d.data (d ++ "/liosam_config.yaml").data = true :=
        strLead_append d _
      have hpre2 : charsLead d.data (d ++ "/liosam_processed.bag").data = true :=
        strLead_append d _
      unfold FS.under
      rw [List.filter_cons_of_pos (by simpa using hpre1),
        List.filter_cons_of_pos (by simpa using hpre2)]
      simp
    · rw [he] at h2
      cases h2

/-- Witness for C9 at a concrete session, output directory, and empty
filesystem. -/
theorem c9_fixed_artifact_filenames_witness :
    generate_config sessValid "d" [] =
      ([("d" ++ "/liosam_config.yaml", 1)], .ok ["d" ++ "/liosam_config.yaml"]) ∧
    liosam_processor sessValid "d" [("d" ++ "/liosam_config.yaml", 1)] =
      ([("d" ++ "/liosam_config.yaml", 1), ("d" ++ "/liosam_processed.bag", 1)],
        .ok ["d" ++ "/liosam_processed.bag"],
        [.procStart, .recOpen, .play, .recClose, .procTerm]) ∧
    (["d" ++ "/liosam_config.yaml"] = ["d" ++ "/liosam_config.yaml"] ∧
     ["d" ++ "/liosam_processed.bag"] = ["d" ++ "/liosam_processed.bag"] ∧
     (FS.under [] "d" = [] →
       FS.under [("d" ++ "/liosam_config.yaml", 1), ("d" ++ "/liosam_processed.bag", 1)] "d" =
         ["d" ++ "/liosam_config.yaml", "d" ++ "/liosam_processed.bag"])) :=
  ⟨by rfl, by rfl,
    c9_fixed_artifact_filenames sessValid sessValid "d" []
      [("d" ++ "/liosam_config.yaml", 1)]
      [("d" ++ "/liosam_config.yaml", 1), ("d" ++ "/liosam_processed.bag", 1)]
      ["d" ++ "/liosam_config.yaml"] ["d" ++ "/liosam_processed.bag"]
      [.procStart, .recOpen, .play, .recClose, .procTerm]
      (by rfl) (by rfl)⟩

theorem liosam_processor_run (s : Session) (d : String) (fs : FS)
    (hb : s.has_bags = true)
    (hc : fs.fileExists (d ++ "/liosam_config.yaml") = true) :
    liosam_processor s d fs =
      ((fs.write (d ++ "/liosam_processed.bag") 0).write (d ++ "/liosam_processed.bag") 1,
        (match s.playResult with
         | .ok _ => .ok [d ++ "/liosam_processed.bag"]
         | .error e => .error e),
        [.procStart, .recOpen, .play, .recClose, .procTerm]) := by
  unfold liosam_processor
  simp only [hb, hc, Bool.not_true, Bool.not_false, if_false, ite_false]
  cases s.playResult <;> rfl

theorem liosam_processor_noconfig (s : Session) (d : String) (fs : FS)
    (hb : s.has_bags = true)
    (hc : fs.fileExists (d ++ "/liosam_config.yaml") = false) :
    liosam_processor s d fs =
      (fs, .error (.exc ("Config file not found: " ++ (d ++ "/liosam_config.yaml") ++
        " -- Run liosam_config processor first")), []) := by
  unfold liosam_processor
  simp only [hb, hc, Bool.not_true, Bool.not_false, if_false, ite_false,
    if_true, ite_true]
  simp

theorem charsContain_of_append (a n b : List Char) :
    charsContain n (a ++ (n ++ b)) = true := by
  induction a with
  | nil =>
    cases n with
    | nil =>
      cases b with
      | nil => rfl
      | cons x xs => rfl
    | cons c cs =>
      rw [List.nil_append, List.cons_append]
      unfold charsContain
      rw [Bool.or_eq_true]
      exact Or.inl (charsLead_self_append _ _)
  | cons c cs ih =>
    rw [List.cons_append]
    cases n with
    | nil => rfl
    | cons x xs =>
      unfold charsContain
      rw [Bool.or_eq_true]
      exact Or.inr ih

/-- C8 (amended): for every session that has bag files and every output
directory in which `liosam_config.yaml` does not exist, the liosam stage
raises an error naming the missing config file, with the filesystem
untouched and no scope event (no external process launched, no output
written). -/
theorem c8_missing_config_aborts (s : Session) (d : String) (fs : FS)
    (hb : s.has_bags = true)
    (hc : fs.fileExists (d ++ "/liosam_config.yaml") = false) :
    liosam_processor s d fs =
      (fs, .error (.exc ("Config file not found: " ++ (d ++ "/liosam_config.yaml") ++
        " -- Run liosam_config processor first")), []) ∧
    strContains ("Config file not found: " ++ (d ++ "/liosam_config.yaml") ++
        " -- Run liosam_config processor first") (d ++ "/liosam_config.yaml") = true := by
  constructor
  · exact liosam_processor_noconfig s d fs hb hc
  · unfold strContains
    have hd : ("Config file not found: " ++ (d ++ "/liosam_config.yaml") ++
        " -- Run liosam_config processor first").toList =
        ("Config file not found: ").toList ++
          ((d ++ "/liosam_config.yaml").toList ++
            (" -- Run liosam_config processor first").toList) := by
      rw [toList_append, toList_append, List.append_assoc]
    rw [hd]
    exact charsContain_of_append _ _ _

/-- Counterexample to C8 as stated: a session without bag files, with the
config file equally missing, raises the bag-files error instead — an
error that does not name the missing config file. -/
theorem c8_counterexample :
    FS.fileExists [] ("d" ++ "/liosam_config.yaml") = false ∧
    liosam_processor sessNoBags "d" [] =
      ([], .error (.exc "Session has no bag files"), []) ∧
    strContains "Session has no bag files" ("d" ++ "/liosam_config.yaml") = false ∧
    strContains "Session has no bag files" "liosam_config.yaml" = false := by
  exact ⟨rfl, rfl, rfl, rfl⟩

/-- Witness for C8 (amended) at a concrete session, directory, and empty
filesystem. -/
theorem c8_missing_config_aborts_witness :
    sessValid.has_bags = true ∧
    FS.fileExists [] ("d" ++ "/liosam_config.yaml") = false ∧
    (liosam_processor sessValid "d" [] =
      ([], .error (.exc ("Config file not found: " ++ ("d" ++ "/liosam_config.yaml") ++
        " -- Run liosam_config processor first")), []) ∧
     strContains ("Config file not found: " ++ ("d" ++ "/liosam_config.yaml") ++
        " -- Run liosam_config processor first") ("d" ++ "/liosam_config.yaml") = true) :=
  ⟨rfl, rfl, c8_missing_config_aborts sessValid "d" [] rfl rfl⟩

/-- C10 (amended): for every session with a non-empty lidar list, the
stage's selection is the first lidar whose lowercased name contains
"velodyne" when one exists and the first lidar otherwise; and provided
the earlier checks pass (an IMU exists, calibration and transform
present), a selected lidar whose name contains neither "velodyne" nor
"ouster" makes the stage fail with the unknown-vendor error. -/
theorem c10_lidar_selection (s : Session) (d : String) (fs : FS)
    (l0 : Sensor) (rest : List Sensor) (hl : s.lidars_3d = l0 :: rest) :
    selectLidar l0 (l0 :: rest) =
      (((l0 :: rest).filter
        (fun l => strContains (strLower l.name) "velodyne")).head?).getD l0 ∧
    (∀ imu irest, s.imus = imu :: irest →
      s.calibPresent = true → s.tfHasTransform = true →
      s.tfLookup (selectLidar l0 (l0 :: rest)).frame_id imu.frame_id = true →
      detectVendor (selectLidar l0 (l0 :: rest)).name = none →
      generate_config s d fs =
        (fs, .error (.exc ("Unknown LiDAR vendor in name: " ++
          (selectLidar l0 (l0 :: rest)).name)))) := by
  constructor
  · unfold selectLidar
    rw [List.filter_head?]
    cases hf : (l0 :: rest).find?
        (fun l => strContains (strLower l.name) "velodyne") <;> rfl
  · intro imu irest him hcal htf hlook hvendor
    unfold generate_config
    rw [hl, him]
    simp only [hcal, htf, hlook, hvendor, Bool.not_true, Bool.false_eq_true,
      if_false, ite_false]

/-- Counterexample to C10 as stated: a session whose only lidar has an
unknown vendor but which also lacks an IMU fails with the missing-IMU
error, not the unknown-vendor error. -/
theorem c10_counterexample :
    detectVendor (selectLidar ⟨"hesai_xt32", "hesai_frame", some "/hesai/points"⟩
      [⟨"hesai_xt32", "hesai_frame", some "/hesai/points"⟩]).name = none ∧
    sessHesaiNoImu.lidars_3d = [⟨"hesai_xt32", "hesai_frame", some "/hesai/points"⟩] ∧
    sessHesaiNoImu.imus = [] ∧
    generate_config sessHesaiNoImu "d" [] =
      ([], .error (.exc "No IMU sensor found in session")) ∧
    Err.exc "No IMU sensor found in session" ≠
      Err.exc ("Unknown LiDAR vendor in name: " ++ "hesai_xt32") :=
  ⟨rfl, rfl, rfl, rfl, by decide⟩

/-- Witness for C10 (amended) at a concrete session with a hesai lidar
and a valid IMU setup. -/
theorem c10_lidar_selection_witness :
    sessHesai.lidars_3d = [⟨"hesai_xt32", "hesai_frame", some "/hesai/points"⟩] ∧
    (selectLidar ⟨"hesai_xt32", "hesai_frame", some "/hesai/points"⟩
        [⟨"hesai_xt32", "hesai_frame", some "/hesai/points"⟩] =
      ((([⟨"hesai_xt32", "hesai_frame", some "/hesai/points"⟩] : List Sensor).filter
        (fun l => strContains (strLower l.name) "velodyne")).head?).getD
          ⟨"hesai_xt32", "hesai_frame", some "/hesai/points"⟩ ∧
     (∀ imu irest, sessHesai.imus = imu :: irest →
      sessHesai.calibPresent = true → sessHesai.tfHasTransform = true →
      sessHesai.tfLookup (selectLidar ⟨"hesai_xt32", "hesai_frame", some "/hesai/points"⟩
        [⟨"hesai_xt32", "hesai_frame", some "/hesai/points"⟩]).frame_id imu.frame_id = true →
      detectVendor (selectLidar ⟨"hesai_xt32", "hesai_frame", some "/hesai/points"⟩
        [⟨"hesai_xt32", "hesai_frame", some "/hesai/points"⟩]).name = none →
      generate_config sessHesai "d" [] =
        ([], .error (.exc ("Unknown LiDAR vendor in name: " ++
          (selectLidar ⟨"hesai_xt32", "hesai_frame", some "/hesai/points"⟩
            [⟨"hesai_xt32", "hesai_frame", some "/hesai/points"⟩]).name))))) :=
  ⟨rfl, c10_lidar_selection sessHesai "d" []
    ⟨"hesai_xt32", "hesai_frame", some "/hesai/points"⟩ [] rfl⟩

/-- C5: whenever the liosam stage reaches its scopes (bag files present,
config artifact present), the recording sink is closed exactly once and
the external process is terminated exactly once on every exit path, and
an exception raised by the scope body (`xb.session.play`) propagates to
the caller unchanged only after that cleanup. -/
theorem c5_cleanup_on_all_paths (s : Session) (d : String) (fs : FS)
    (hb : s.has_bags = true)
    (hc : fs.fileExists (d ++ "/liosam_config.yaml") = true) :
    ((liosam_processor s d fs).2.2).count Ev.recClose = 1 ∧
    ((liosam_processor s d fs).2.2).count Ev.procTerm = 1 ∧
    (∀ e, s.playResult = .error e → (liosam_processor s d fs).2.1 = .error e) ∧
    (s.playResult = .ok () → (liosam_processor s d fs).2.1 =
      .ok [d ++ "/liosam_processed.bag"]) := by
  rw [liosam_processor_run s d fs hb hc]
  cases hp : s.playResult with
  | ok u =>
    cases u
    dsimp only
    refine ⟨by decide, by decide, ?_, ?_⟩
    · intro e he
      cases he
    · intro _
      rfl
  | error e0 =>
    dsimp only
    refine ⟨by decide, by decide, ?_, ?_⟩
    · intro e he
      cases he
      rfl
    · intro hok
      cases hok

/-- Witness for C5 at a concrete session whose replay is interrupted. -/
theorem c5_cleanup_on_all_paths_witness :
    sessInterrupt.has_bags = true ∧
    FS.fileExists [("d" ++ "/liosam_config.yaml", 1)]
      ("d" ++ "/liosam_config.yaml") = true ∧
    (((liosam_processor sessInterrupt "d"
        [("d" ++ "/liosam_config.yaml", 1)]).2.2).count Ev.recClose = 1 ∧
     ((liosam_processor sessInterrupt "d"
        [("d" ++ "/liosam_config.yaml", 1)]).2.2).count Ev.procTerm = 1 ∧
     (∀ e, sessInterrupt.playResult = .error e →
       (liosam_processor sessInterrupt "d"
         [("d" ++ "/liosam_config.yaml", 1)]).2.1 = .error e) ∧
     (sessInterrupt.playResult = .ok () →
       (liosam_processor sessInterrupt "d"
         [("d" ++ "/liosam_config.yaml", 1)]).2.1 =
         .ok ["d" ++ "/liosam_processed.bag"])) :=
  ⟨rfl, rfl, c5_cleanup_on_all_paths sessInterrupt "d"
    [("d" ++ "/liosam_config.yaml", 1)] rfl rfl⟩

/-- C6: whenever the liosam stage reaches its scopes, the recording scope
is strictly nested inside the supervised-process scope: the process scope
starts before the recording opens, the recording closes before the
process scope is torn down, and this holds on every exit path. -/
theorem c6_scope_nesting (s : Session) (d : String) (fs : FS)
    (hb : s.has_bags = true)
    (hc : fs.fileExists (d ++ "/liosam_config.yaml") = true) :
    ((liosam_processor s d fs).2.2).indexOf Ev.procStart <
      ((liosam_processor s d fs).2.2).indexOf Ev.recOpen ∧
    ((liosam_processor s d fs).2.2).indexOf Ev.recOpen <
      ((liosam_processor s d fs).2.2).indexOf Ev.recClose ∧
    ((liosam_processor s d fs).2.2).indexOf Ev.recClose <
      ((liosam_processor s d fs).2.2).indexOf Ev.procTerm := by
  rw [liosam_processor_run s d fs hb hc]
  cases s.playResult <;> dsimp only <;> exact ⟨by decide, by decide, by decide⟩

/-- Witness for C6 at a concrete session. -/
theorem c6_scope_nesting_witness :
    sessValid.has_bags = true ∧
    FS.fileExists [("d" ++ "/liosam_config.yaml", 1)]
      ("d" ++ "/liosam_config.yaml") = true ∧
    (((liosam_processor sessValid "d"
        [("d" ++ "/liosam_config.yaml", 1)]).2.2).indexOf Ev.procStart <
      ((liosam_processor sessValid "d"
        [("d" ++ "/liosam_config.yaml", 1)]).2.2).indexOf Ev.recOpen ∧
     ((liosam_processor sessValid "d"
        [("d" ++ "/liosam_config.yaml", 1)]).2.2).indexOf Ev.recOpen <
      ((liosam_processor sessValid "d"
        [("d" ++ "/liosam_config.yaml", 1)]).2.2).indexOf Ev.recClose ∧
     ((liosam_processor sessValid "d"
        [("d" ++ "/liosam_config.yaml", 1)]).2.2).indexOf Ev.recClose <
      ((liosam_processor sessValid "d"
        [("d" ++ "/liosam_config.yaml", 1)]).2.2).indexOf Ev.procTerm) :=
  ⟨rfl, rfl, c6_scope_nesting sessValid "d" [("d" ++ "/liosam_config.yaml", 1)] rfl rfl⟩

theorem pipelineRun_succeeded_invoked (s : Session) (name g : String)
    (force : Bool) (fs : FS)
    (h : (pipelineRun s name g force fs).status = .Succeeded) :
    (pipelineRun s name g force fs).invoked = true := by
  unfold pipelineRun at h ⊢
  cases hfind : registry.find? (fun st => st.name == name) with
  | none =>
    rw [hfind] at h
    exact absurd h (by simp)
  | some st =>
    rw [hfind] at h
    dsimp only at h ⊢
    by_cases hskip : (!force && fs.fileNonempty
        (sessionOutDir s g ++ "/" ++ st.primary)) = true
    · rw [if_pos hskip] at h
      cases h
    · rw [if_neg hskip] at h ⊢
      rcases hbody : st.body s (sessionOutDir s g) fs with ⟨fs', res, evs⟩
      cases res with
      | error e => rfl
      | ok arts =>
        dsimp only at h ⊢
        by_cases hall : arts.all fs'.fileExists = true


        · rw [if_pos hall]
        · rw [if_neg hall]

theorem pipelineRun_skip_eq (s : Session) (name g : String) (force : Bool)
    (fs : FS) (st : StageSpec)
    (hfind : registry.find? (fun t => t.name == name) = some st)
    (hcond : (!force && fs.fileNonempty
      (sessionOutDir s g ++ "/" ++ st.primary)) = true) :
    pipelineRun s name g force fs =
      ⟨.Skipped, [sessionOutDir s g ++ "/" ++ st.primary], false, fs, []⟩ := by
  unfold pipelineRun
  rw [hfind]
  dsimp only
  rw [if_pos hcond]

/-- C1: engine idempotency.  For every (session, stage) pair, if a
`force := false` engine run succeeded, and afterwards the stage's primary
artifact is non-empty and was exactly the run's artifact list, then the
run invoked the stage body, and a second `force := false` run on the
resulting filesystem returns immediately with status `Skipped`, the same
artifact list, and the same filesystem, without invoking the stage body
again — the body runs exactly once across the two runs. -/
theorem c1_engine_idempotent (s : Session) (name g : String) (fs : FS)
    (pp : String)
    (hpp : primaryPathOf s name g = some pp)
    (h1 : (pipelineRun s name g false fs).status = .Succeeded)
    (hne : ((pipelineRun s name g false fs).fs).fileNonempty pp = true)
    (hart : (pipelineRun s name g false fs).artifacts = [pp]) :
    (pipelineRun s name g false fs).invoked = true ∧
    pipelineRun s name g false ((pipelineRun s name g false fs).fs) =
      ⟨.Skipped, (pipelineRun s name g false fs).artifacts, false,
        (pipelineRun s name g false fs).fs, []⟩ := by
  refine ⟨pipelineRun_succeeded_invoked s name g false fs h1, ?_⟩
  unfold primaryPathOf at hpp
  cases hfind : registry.find? (fun t => t.name == name) with
  | none =>
    rw [hfind] at hpp
    cases hpp
  | some st =>
    rw [hfind] at hpp
    simp only [Option.map_some', Option.some.injEq] at hpp
    rw [pipelineRun_skip_eq s name g false ((pipelineRun s name g false fs).fs) st hfind
      (by rw [hpp, Bool.not_false, Bool.true_and]; exact hne)]
    rw [hart, hpp]

/-- Witness for C1 at the `liosam_config` stage of a concrete session on
the empty filesystem. -/
theorem c1_engine_idempotent_witness :
    primaryPathOf sessValid "liosam_config" "liosam" =
      some ("s1/processed/liosam/liosam_config.yaml") ∧
    (pipelineRun sessValid "liosam_config" "liosam" false []).status = .Succeeded ∧
    ((pipelineRun sessValid "liosam_config" "liosam" false []).fs).fileNonempty
      "s1/processed/liosam/liosam_config.yaml" = true ∧
    (pipelineRun sessValid "liosam_config" "liosam" false []).artifacts =
      ["s1/processed/liosam/liosam_config.yaml"] ∧
    ((pipelineRun sessValid "liosam_config" "liosam" false []).invoked = true ∧
     pipelineRun sessValid "liosam_config" "liosam" false
        ((pipelineRun sessValid "liosam_config" "liosam" false []).fs) =
      ⟨.Skipped, (pipelineRun sessValid "liosam_config" "liosam" false []).artifacts,
        false, (pipelineRun sessValid "liosam_config" "liosam" false []).fs, []⟩) :=
  ⟨by rfl, by rfl, by rfl, by rfl,
    c1_engine_idempotent sessValid "liosam_config" "liosam" []
      "s1/processed/liosam/liosam_config.yaml" (by rfl) (by rfl) (by rfl) (by rfl)⟩

/-! ## Behaviour of the concrete sessions -/

theorem dirCfg_eq (s : Session) :
    sessionOutDir s "liosam" ++ "/liosam_config.yaml" = cfgPathOf s.uuid := by
  show _ = sessionOutDir s "liosam" ++ "/" ++ "liosam_config.yaml"
  rw [String.append_assoc]
  rfl

theorem sessValid_gen (d : String) (fs : FS) :
    generate_config sessValid d fs =
      (fs.write (d ++ "/liosam_config.yaml") 1, .ok [d ++ "/liosam_config.yaml"]) := rfl

theorem goodSession_sessValid (force : Bool) : goodSession force sessValid := by
  constructor
  · intro fs
    rcases pipelineRun_cfg_cases sessValid "liosam" force fs with
      ⟨he, _⟩ | ⟨_, ⟨m, _, hgen⟩ | ⟨he, _⟩⟩
    · rw [he]
      rfl
    · rw [sessValid_gen] at hgen
      cases hgen
    · rw [he]
      rfl
  · intro fs hex
    rcases pipelineRun_lio_cases sessValid "liosam" force fs with
      ⟨he, _⟩ | ⟨_, ⟨m, _, hbody⟩ | ⟨he, _⟩ | ⟨e, hp, _, _⟩⟩
    · rw [he]
      rfl
    · rw [liosam_processor_run sessValid (sessionOutDir sessValid "liosam") fs rfl
        (by rw [dirCfg_eq]; exact hex)] at hbody
      cases hbody
    · rw [he]
      rfl
    · cases hp

theorem cfgBodyFails_sessNoImu : cfgBodyFails sessNoImu :=
  fun _ => ⟨"No IMU sensor found in session", rfl⟩

/-- C2: batch failure isolation.  In an uninterrupted batch over
`pre ++ sk :: post` where one session `sk`'s stage body always raises an
ordinary exception and every other session succeeds (and no other session
shares `sk`'s uuid, and `sk`'s artifacts are not yet present), every
session is attempted, the remaining stages of `sk` are abandoned when its
config body fails, the loop is never interrupted, and the final summary
counts exactly N-1 successes and 1 failure with
succeeded + failed = total. -/
theorem c2_batch_failure_isolation (force : Bool) (fs : FS)
    (pre post : List Session) (sk : Session)
    (hgood : ∀ s ∈ pre ++ post, goodSession force s)
    (huuid : ∀ s ∈ pre ++ post, s.uuid ≠ sk.uuid)
    (hbad : badSession force sk)
    (hfc : fs.fileNonempty (cfgPathOf sk.uuid) = false)
    (hfb : fs.fileNonempty (bagPathOf sk.uuid) = false) :
    (batchMain (pre ++ sk :: post) force fs).2.2 = false ∧
    (batchMain (pre ++ sk :: post) force fs).2.1.success =
      (pre ++ sk :: post).length - 1 ∧
    (batchMain (pre ++ sk :: post) force fs).2.1.fail = 1 ∧
    (batchMain (pre ++ sk :: post) force fs).2.1.success +
      (batchMain (pre ++ sk :: post) force fs).2.1.fail =
      (pre ++ sk :: post).length ∧
    (∀ s ∈ pre ++ sk :: post, ∃ stt, TraceEntry.mk s.uuid "liosam_config" stt ∈
      (batchMain (pre ++ sk :: post) force fs).2.1.trace) ∧
    (cfgBodyFails sk → ∀ stt, TraceEntry.mk sk.uuid "liosam" stt ∉
      (batchMain (pre ++ sk :: post) force fs).2.1.trace) := by
  have hne : (pre ++ sk :: post) ≠ [] := by simp
  obtain ⟨st1, hloop1, hsucc1, hfail1, hmono1, hatt1, hnew1, hfs1⟩ :=
    batchLoop_good force pre ⟨0, 0, [], fs⟩
      (fun s hs => hgood s (List.mem_append_left _ hs))
  have happ := batchLoop_append force pre (sk :: post) ⟨0, 0, [], fs⟩ st1 hloop1
  have hdisj : ∀ s ∈ pre, (cfgPathOf sk.uuid ≠ cfgPathOf s.uuid ∧
      cfgPathOf sk.uuid ≠ bagPathOf s.uuid) ∧
      (bagPathOf sk.uuid ≠ cfgPathOf s.uuid ∧
      bagPathOf sk.uuid ≠ bagPathOf s.uuid) := by
    intro s hs
    have h := uuid_ne_paths (Ne.symm (huuid s (List.mem_append_left _ hs)))
    exact ⟨⟨h.1, h.2.1⟩, ⟨h.2.2.1, h.2.2.2⟩⟩
  have hfs1c : st1.fs.fileNonempty (cfgPathOf sk.uuid) = false := by
    rw [FS.fileNonempty_congr (hfs1 (cfgPathOf sk.uuid)
      (fun s hs => (hdisj s hs).1))]
    exact hfc
  have hfs1b : st1.fs.fileNonempty (bagPathOf sk.uuid) = false := by
    rw [FS.fileNonempty_congr (hfs1 (bagPathOf sk.uuid)
      (fun s hs => (hdisj s hs).2))]
    exact hfb
  have hstepex : ∃ st2 extra, batchStep force sk st1 = .next st2 ∧
      st2.success = st1.success ∧ st2.fail = st1.fail + 1 ∧
      st2.trace = st1.trace ++ extra ∧
      (∃ stt, TraceEntry.mk sk.uuid "liosam_config" stt ∈ extra) ∧
      (∀ e ∈ extra, e.uuid = sk.uuid) ∧
      (cfgBodyFails sk →
        ∀ stt, TraceEntry.mk sk.uuid "liosam" stt ∉ extra) := by
    rcases hbad with hcb | ⟨hcfgok, hlb⟩
    · obtain ⟨m, hstep⟩ := batchStep_badcfg force sk st1 hcb hfs1c
      refine ⟨_, [⟨sk.uuid, "liosam_config", .Failed (.exc m)⟩], hstep,
        rfl, rfl, rfl, ⟨.Failed (.exc m), List.mem_singleton.mpr rfl⟩, ?_, ?_⟩
      · intro e he
        rcases List.mem_singleton.mp he with rfl
        rfl
      · intro _ stt hmem
        have h3 := List.mem_singleton.mp hmem
        simp [TraceEntry.mk.injEq] at h3
    · obtain ⟨c, m, hcok, hstep⟩ := batchStep_badlio force sk st1 hcfgok hlb hfs1b
      refine ⟨_, [⟨sk.uuid, "liosam_config", c⟩,
        ⟨sk.uuid, "liosam", .Failed (.exc m)⟩], hstep,
        rfl, rfl, rfl, ⟨c, List.mem_cons_self _ _⟩, ?_, ?_⟩
      · intro e he
        rcases List.mem_cons.mp he with rfl | he2
        · rfl
        · rcases List.mem_singleton.mp he2 with rfl
          rfl
      · intro hcb stt _
        obtain ⟨m', hm'⟩ := pipelineRun_cfg_fails sk force st1.fs hcb hfs1c
        have hok := hcfgok st1.fs
        rw [hm'] at hok
        cases hok
  obtain ⟨st2, extra, hstep, hs2succ, hs2fail, hs2trace, hs2att, hs2uuid, hs2nolio⟩ :=
    hstepex
  have hloopsk : batchLoop force (sk :: post) st1 = batchLoop force post st2 := by
    simp only [batchLoop, hstep]
  obtain ⟨st3, hloop3, hsucc3, hfail3, hmono3, hatt3, hnew3, _⟩ :=
    batchLoop_good force post st2
      (fun s hs => hgood s (List.mem_append_right _ hs))
  have hfinal : batchLoop force (pre ++ sk :: post) ⟨0, 0, [], fs⟩ = (st3, false) := by
    rw [happ, hloopsk, hloop3]
  have hN : (pre ++ sk :: post).length = pre.length + post.length + 1 := by
    simp [List.length_append]
    omega
  rw [batchMain_ne_nil _ force fs hne]
  dsimp only
  rw [hfinal]
  dsimp only
  have hsuccN : st3.success = pre.length + post.length := by
    rw [hsucc3, hs2succ, hsucc1]
    dsimp only
    omega
  have hfailN : st3.fail = 1 := by
    rw [hfail3, hs2fail, hfail1]
  refine ⟨rfl, by omega, hfailN, by omega, ?_, ?_⟩
  · intro s hs
    rcases List.mem_append.mp hs with hpre | hskpost
    · obtain ⟨stt, hmem⟩ := hatt1 s hpre
      refine ⟨stt, hmono3 _ ?_⟩
      rw [hs2trace]
      exact List.mem_append_left _ hmem
    · rcases List.mem_cons.mp hskpost with rfl | hpost
      · obtain ⟨stt, hmem⟩ := hs2att
        refine ⟨stt, hmono3 _ ?_⟩
        rw [hs2trace]
        exact List.mem_append_right _ hmem
      · exact hatt3 s hpost
  · intro hcb stt hmem
    rcases hnew3 _ hmem with h2 | ⟨s, hs, hu⟩
    · rw [hs2trace] at h2
      rcases List.mem_append.mp h2 with h1 | hx
      · rcases hnew1 _ h1 with h0 | ⟨s, hs, hu⟩
        · cases h0
        · exact huuid s (List.mem_append_left _ hs) hu.symm
      · exact hs2nolio hcb stt hx
    · exact huuid s (List.mem_append_right _ hs) hu.symm

/-- Witness for C2: a two-session batch in which the second session lacks
an IMU, so its config body always raises. -/
theorem c2_batch_failure_isolation_witness :
    goodSession false sessValid ∧
    badSession false sessNoImu ∧
    FS.fileNonempty [] (cfgPathOf sessNoImu.uuid) = false ∧
    ((batchMain ([sessValid] ++ sessNoImu :: []) false []).2.2 = false ∧
     (batchMain ([sessValid] ++ sessNoImu :: []) false []).2.1.success =
       ([sessValid] ++ sessNoImu :: []).length - 1 ∧
     (batchMain ([sessValid] ++ sessNoImu :: []) false []).2.1.fail = 1 ∧
     (batchMain ([sessValid] ++ sessNoImu :: []) false []).2.1.success +
       (batchMain ([sessValid] ++ sessNoImu :: []) false []).2.1.fail =
       ([sessValid] ++ sessNoImu :: []).length ∧
     (∀ s ∈ [sessValid] ++ sessNoImu :: [], ∃ stt,
       TraceEntry.mk s.uuid "liosam_config" stt ∈
         (batchMain ([sessValid] ++ sessNoImu :: []) false []).2.1.trace) ∧
     (cfgBodyFails sessNoImu → ∀ stt,
       TraceEntry.mk sessNoImu.uuid "liosam" stt ∉
         (batchMain ([sessValid] ++ sessNoImu :: []) false []).2.1.trace)) :=
  ⟨goodSession_sessValid false, Or.inl cfgBodyFails_sessNoImu, rfl,
    c2_batch_failure_isolation false [] [sessValid] [] sessNoImu
      (by
        intro s hs
        rcases List.mem_singleton.mp (by simpa using hs) with rfl
        exact goodSession_sessValid false)
      (by
        intro s hs
        rcases List.mem_singleton.mp (by simpa using hs) with rfl
        decide)
      (Or.inl cfgBodyFails_sessNoImu) rfl rfl⟩

/-- C3: stage ordering.  In the batch command, every `liosam` trace entry
is immediately preceded by a same-session `liosam_config` entry whose
status is `Succeeded` or `Skipped`; a session whose config body always
raises (its artifact not yet present) never has its `liosam` stage
invoked.  The single-session command satisfies the same ordering, and
never invokes `liosam` when its config stage did not come back ok. -/
theorem c3_config_before_liosam (force : Bool) (fs : FS)
    (sessions : List Session) (s : Session)
    (hcfgfail : ∀ t ∈ sessions, t.uuid = s.uuid → cfgBodyFails t)
    (hfresh : fs.fileNonempty (cfgPathOf s.uuid) = false) :
    tracePrec (batchMain sessions force fs).2.1.trace ∧
    (∀ stt, TraceEntry.mk s.uuid "liosam" stt ∉
      (batchMain sessions force fs).2.1.trace) ∧
    tracePrec (singleMain s force fs).2.1 ∧
    (((pipelineRun s "liosam_config" "liosam2" force fs).status).isOk = false →
      ∀ stt, TraceEntry.mk s.uuid "liosam" stt ∉ (singleMain s force fs).2.1) := by
  have hbatch : tracePrec (batchMain sessions force fs).2.1.trace ∧
      (∀ stt, TraceEntry.mk s.uuid "liosam" stt ∉
        (batchMain sessions force fs).2.1.trace) := by
    cases sessions with
    | nil => exact ⟨tracePrec_nil, fun stt h => by cases h⟩
    | cons s0 rest =>
      rw [batchMain_ne_nil _ force fs (by simp)]
      dsimp only
      constructor
      · exact batchLoop_prec force (s0 :: rest) ⟨0, 0, [], fs⟩ tracePrec_nil
      · exact batchLoop_no_liosam force s.uuid (s0 :: rest) ⟨0, 0, [], fs⟩
          hcfgfail hfresh (fun stt h => by cases h)
  refine ⟨hbatch.1, hbatch.2, ?_, ?_⟩
  · rcases singleMain_cases s force fs with
      ⟨_, he⟩ | ⟨_, ⟨m, _, he⟩ | ⟨_, he⟩ | ⟨hok1, ⟨_, he⟩ | ⟨_, _, he⟩ | ⟨_, he⟩⟩⟩
    · rw [he]
      exact tracePrec_nil
    · rw [he]
      simpa using tracePrec_append_one [] _ rfl tracePrec_nil
    · rw [he]
      simpa using tracePrec_append_one [] _ rfl tracePrec_nil
    all_goals
      rw [he]
      simpa using tracePrec_append_two []
        ⟨s.uuid, "liosam_config",
          (pipelineRun s "liosam_config" "liosam2" force fs).status⟩
        ⟨s.uuid, "liosam", (pipelineRun s "liosam" "liosam2" force
          (pipelineRun s "liosam_config" "liosam2" force fs).fs).status⟩
        rfl rfl hok1 tracePrec_nil
  · intro hnok stt
    rcases singleMain_cases s force fs with
      ⟨_, he⟩ | ⟨_, ⟨m, _, he⟩ | ⟨_, he⟩ | ⟨hok1, _⟩⟩
    · rw [he]
      intro h
      cases h
    · rw [he]
      intro h
      have h3 := List.mem_singleton.mp h
      simp [TraceEntry.mk.injEq] at h3
    · rw [he]
      intro h
      have h3 := List.mem_singleton.mp h
      simp [TraceEntry.mk.injEq] at h3
    · rw [hok1] at hnok
      cases hnok

/-- Witness for C3: the batch `[sessValid, sessNoImu]` and the single
command on `sessNoImu`, whose config body always raises. -/
theorem c3_config_before_liosam_witness :
    FS.fileNonempty [] (cfgPathOf sessNoImu.uuid) = false ∧
    (tracePrec (batchMain [sessValid, sessNoImu] false []).2.1.trace ∧
     (∀ stt, TraceEntry.mk sessNoImu.uuid "liosam" stt ∉
       (batchMain [sessValid, sessNoImu] false []).2.1.trace) ∧
     tracePrec (singleMain sessNoImu false []).2.1 ∧
     (((pipelineRun sessNoImu "liosam_config" "liosam2" false []).status).isOk = false →
       ∀ stt, TraceEntry.mk sessNoImu.uuid "liosam" stt ∉
         (singleMain sessNoImu false []).2.1)) :=
  ⟨rfl,
    c3_config_before_liosam false [] [sessValid, sessNoImu] sessNoImu
      (by
        intro t ht hu
        rcases List.mem_cons.mp ht with rfl | ht2
        · exact absurd hu (by decide)
        · rcases List.mem_singleton.mp ht2 with rfl
          exact cfgBodyFails_sessNoImu)
      rfl⟩

/-- Counterexample to C4 as stated: a one-session batch whose replay is
interrupted by the user (`KeyboardInterrupt` during the liosam stage) is
an interrupted run, yet the batch command exits with code 0 (no session
had been counted as failed), not 130. -/
theorem c4_counterexample :
    (batchMain [sessInterrupt] false []).2.2 = true ∧
    (batchMain [sessInterrupt] false []).2.1.fail = 0 ∧
    (batchMain [sessInterrupt] false []).1 = .code 0 ∧
    ExitOutcome.code 0 ≠ ExitOutcome.code 130 :=
  ⟨rfl, rfl, rfl, by decide⟩

/-- C4 (amended): exit codes.  The batch command always exits with code 0
when no session failed and code 1 otherwise — including after a user
interrupt, so a batch interrupt never yields 130.  The single-session
command exits 0 exactly when both stages come back ok, 130 exactly when
the user interrupt arrives during the liosam stage, 1 when the session
has no bag files, and 1 when the config stage raises an ordinary
exception. -/
theorem c4_exit_codes (s : Session) (sessions : List Session) (force : Bool)
    (fs : FS) :
    (batchMain sessions force fs).1 =
      (if (batchMain sessions force fs).2.1.fail = 0 then .code 0 else .code 1) ∧
    (s.has_bags = true →
      ((pipelineRun s "liosam_config" "liosam2" force fs).status).isOk = true →
      (((singleMain s force fs).1 = .code 0 ↔
        ((pipelineRun s "liosam" "liosam2" force
          (pipelineRun s "liosam_config" "liosam2" force fs).fs).status).isOk = true) ∧
       ((singleMain s force fs).1 = .code 130 ↔
        (pipelineRun s "liosam" "liosam2" force
          (pipelineRun s "liosam_config" "liosam2" force fs).fs).status =
          .Failed .interrupt))) ∧
    (s.has_bags = false → (singleMain s force fs).1 = .code 1) ∧
    (s.has_bags = true →
      (∃ m, (pipelineRun s "liosam_config" "liosam2" force fs).status =
        .Failed (.exc m)) →
      (singleMain s force fs).1 = .code 1) := by
  refine ⟨?_, ?_, ?_, ?_⟩
  · cases sessions with
    | nil => rfl
    | cons s0 rest =>
      rw [batchMain_ne_nil _ force fs (by simp)]
  · intro hb hok1
    rcases singleMain_cases s force fs with
      ⟨hb', _⟩ | ⟨_, ⟨m, hst, _⟩ | ⟨hst, _⟩ | ⟨_, ⟨hst, he⟩ | ⟨m, hst, he⟩ | ⟨hst2, he⟩⟩⟩
    · rw [hb'] at hb
      cases hb
    · rw [hst] at hok1
      cases hok1
    · rw [hst] at hok1
      cases hok1
    · rw [he, hst]
      constructor
      · constructor
        · intro h
          cases h
        · intro h
          cases h
      · exact ⟨fun _ => rfl, fun _ => rfl⟩
    · rw [he, hst]
      constructor
      · constructor
        · intro h
          cases h
        · intro h
          cases h
      · constructor
        · intro h
          cases h
        · intro h
          cases h
    · rw [he]
      constructor
      · exact ⟨fun _ => hst2, fun _ => rfl⟩
      · constructor
        · intro h
          cases h
        · intro h
          rw [h] at hst2
          cases hst2
  · intro hb
    rcases singleMain_cases s force fs with ⟨_, he⟩ | ⟨hb', _⟩
    · rw [he]
    · rw [hb'] at hb
      cases hb
  · intro hb ⟨m, hst⟩
    rcases singleMain_cases s force fs with
      ⟨hb', _⟩ | ⟨_, ⟨m', _, he⟩ | ⟨hst', _⟩ | ⟨hok1, _⟩⟩
    · rw [hb'] at hb
      cases hb
    · rw [he]
    · rw [hst] at hst'
      cases hst'
    · rw [hst] at hok1
      cases hok1

/-- Witness for C4 (amended): the batch clause at the interrupted
one-session batch, and the single-session clauses at a fully valid
session. -/
theorem c4_exit_codes_witness :
    ((batchMain [sessInterrupt] false []).1 =
      (if (batchMain [sessInterrupt] false []).2.1.fail = 0 then
        ExitOutcome.code 0 else ExitOutcome.code 1)) ∧
    sessValid.has_bags = true ∧
    ((pipelineRun sessValid "liosam_config" "liosam2" false []).status).isOk = true ∧
    ((singleMain sessValid false []).1 = .code 0 ↔
      ((pipelineRun sessValid "liosam" "liosam2" false
        (pipelineRun sessValid "liosam_config" "liosam2" false []).fs).status).isOk
        = true) :=
  ⟨(c4_exit_codes sessValid [sessInterrupt] false []).1, rfl, by rfl,
    ((c4_exit_codes sessValid [sessInterrupt] false []).2.1 rfl (by rfl)).1⟩

/-- C7: the concrete two-session scenario.  A batch over `[S1, S2]` with
the two-stage plan, where `S1` is fully valid and `S2` has a 3D lidar but
no IMU, yields 1 success and 1 failure out of 2, the trace records `S2`'s
config failure with the message "No IMU sensor found in session" (which
cites "no imu sensor found" case-insensitively), and `S1`'s output
directory holds exactly the two expected artifact files. -/
theorem c7_two_session_scenario :
    (batchMain [sessValid, sessNoImu] false []).2.1.success = 1 ∧
    (batchMain [sessValid, sessNoImu] false []).2.1.fail = 1 ∧
    (batchMain [sessValid, sessNoImu] false []).2.1.success +
      (batchMain [sessValid, sessNoImu] false []).2.1.fail =
      [sessValid, sessNoImu].length ∧
    TraceEntry.mk "s2" "liosam_config"
        (.Failed (.exc "No IMU sensor found in session")) ∈
      (batchMain [sessValid, sessNoImu] false []).2.1.trace ∧
    strContains (strLower "No IMU sensor found in session")
      "no imu sensor found" = true ∧
    FS.under (batchMain [sessValid, sessNoImu] false []).2.1.fs
        "s1/processed/liosam" =
      ["s1/processed/liosam/liosam_config.yaml",
       "s1/processed/liosam/liosam_processed.bag"] :=
  ⟨rfl, rfl, rfl, by decide, by decide, by decide⟩

end LioSam
